import Mathlib

/-!
A shallow embedding of the reftar archive core.

This file embeds the reftar archiver (src/format.rs, src/create.rs,
src/extract.rs, src/reflink.rs) in Lean 4 and proves properties of the
embedding.

Modelling conventions:
* A byte stream is a `List Nat`; every byte the writers produce is `< 256`.
* Rust `Read::read_exact` is `readExact`; a short read is the error
  `RErr.eofErr`, which models the `std::io` message
  "failed to fill whole buffer" that `extract.rs` tests for with
  `e.to_string().contains(..)`.  No other error constructor models a message
  containing that text, mirroring the actual messages in the source.
* Machine integers are `Nat` with explicit `% 2^w` where Rust wraps, and
  `usizeSub` / `usizeMod` return `none` where Rust release arithmetic would
  panic (underflow, division by zero); writers therefore return
  `Option (List Nat)` and readers can fail with `RErr.overflowStop`.
* Rust `String` values are carried as their UTF-8 byte lists; `String::from_utf8`
  is modelled by the validator `utf8Valid` and `String::from_utf8_lossy` by
  `fromUtf8Lossy` (U+FFFD substitution per invalid maximal subpart).
* Loops (`extract_all`, the extent loop of `extract_file_with_extents`, the
  lossy UTF-8 scan) are given fuel bounded by the remaining stream length;
  running out of fuel is the distinguished result `RErr.modelFuel` and is
  never identified with any source behaviour.
-/

/-! ## Little-endian integers -/

/-- Little-endian byte encoding of `v` on `k` bytes (`u16::to_le_bytes`,
`u32::to_le_bytes`, ..., truncating like a cast to the `k`-byte width). -/
def toLE : Nat → Nat → List Nat
  | 0, _ => []
  | k + 1, v => (v % 256) :: toLE k (v / 256)

/-- Little-endian byte decoding (`u16::from_le_bytes`, ...). -/
def fromLE : List Nat → Nat
  | [] => 0
  | b :: bs => b + 256 * fromLE bs

/-! ## Checked `usize` arithmetic

Rust release-mode subtraction of unsigned integers wraps around on underflow
(and panics in debug builds); in both cases the value the source then uses as
a padding length is garbage, so the embedding treats underflow as a stop:
`none` on the writer side, `RErr.overflowStop` on the reader side. `%` by
zero always panics in Rust. -/

def usizeSub (a b : Nat) : Option Nat :=
  if b ≤ a then some (a - b) else none

def usizeMod (a b : Nat) : Option Nat :=
  if b = 0 then none else some (a % b)

/-! ## CRC-32 (IEEE), the algorithm of `crc32fast::hash` -/

/-- Process one byte of the reflected IEEE CRC-32. -/
def crc32Byte (crc b : Nat) : Nat :=
  (List.range 8).foldl
    (fun c _ => if c % 2 = 1 then (c >>> 1) ^^^ 0xEDB88320 else c >>> 1)
    (crc ^^^ (b % 256))

/-- Models `crc32fast::hash`: init `0xFFFFFFFF`, reflected polynomial `0xEDB88320`,
final xor `0xFFFFFFFF`. -/
def crc32 (data : List Nat) : Nat :=
  (data.foldl crc32Byte 0xFFFFFFFF) ^^^ 0xFFFFFFFF

/-! ## UTF-8 validation and lossy decoding

`read_length_prefixed_string` uses `String::from_utf8` (strict) and the
`source_filesystem_type` field uses `String::from_utf8_lossy`.  `utf8Class`
classifies the first scalar-value sequence of a byte list exactly as
`core::str` does: it returns `(valid?, emitted bytes, remaining bytes)`,
where an invalid maximal subpart emits the replacement character
U+FFFD (`EF BF BD`) and consumes only the subpart. -/

def utf8Repl : List Nat := [0xEF, 0xBF, 0xBD]

/-- Is `b` a UTF-8 continuation byte (`0x80..=0xBF`)? -/
def utf8Cont (b : Nat) : Bool := 0x80 ≤ b ∧ b ≤ 0xBF

/-- Constraint on the second byte of a multi-byte sequence led by `b`
(narrowed ranges for `E0`, `ED`, `F0`, `F4` per the Unicode table). -/
def utf8Second (b b1 : Nat) : Bool :=
  if b = 0xE0 then 0xA0 ≤ b1 ∧ b1 ≤ 0xBF
  else if b = 0xED then 0x80 ≤ b1 ∧ b1 ≤ 0x9F
  else if b = 0xF0 then 0x90 ≤ b1 ∧ b1 ≤ 0xBF
  else if b = 0xF4 then 0x80 ≤ b1 ∧ b1 ≤ 0x8F
  else utf8Cont b1

/-- Classify the sequence starting with byte `b` followed by `rest`. -/
def utf8Class (b : Nat) (rest : List Nat) : Bool × List Nat × List Nat :=
  if b < 0x80 then (true, [b], rest)
  else if 0xC2 ≤ b ∧ b ≤ 0xDF then
    match rest with
    | [] => (false, utf8Repl, [])
    | b1 :: r1 =>
      if utf8Second b b1 then (true, [b, b1], r1) else (false, utf8Repl, b1 :: r1)
  else if 0xE0 ≤ b ∧ b ≤ 0xEF then
    match rest with
    | [] => (false, utf8Repl, [])
    | [b1] => (false, utf8Repl, if utf8Second b b1 then [] else [b1])
    | b1 :: b2 :: r2 =>
      if utf8Second b b1 then
        if utf8Cont b2 then (true, [b, b1, b2], r2) else (false, utf8Repl, b2 :: r2)
      else (false, utf8Repl, b1 :: b2 :: r2)
  else if 0xF0 ≤ b ∧ b ≤ 0xF4 then
    match rest with
    | [] => (false, utf8Repl, [])
    | [b1] => (false, utf8Repl, if utf8Second b b1 then [] else [b1])
    | [b1, b2] =>
      if utf8Second b b1 then
        (false, utf8Repl, if utf8Cont b2 then [] else [b2])
      else (false, utf8Repl, [b1, b2])
    | b1 :: b2 :: b3 :: r3 =>
      if utf8Second b b1 then
        if utf8Cont b2 then
          if utf8Cont b3 then (true, [b, b1, b2, b3], r3)
          else (false, utf8Repl, b3 :: r3)
        else (false, utf8Repl, b2 :: b3 :: r3)
      else (false, utf8Repl, b1 :: b2 :: b3 :: r3)
  else (false, utf8Repl, rest)

/-- Strict validation scan (`String::from_utf8` succeeds iff this holds).
The fuel is an upper bound on the number of scalar sequences; the callers
pass the list length, which always suffices because every step consumes at
least one byte. -/
def utf8ValidGo : Nat → List Nat → Bool
  | 0, l => l.isEmpty
  | _, [] => true
  | fuel + 1, b :: rest =>
    let c := utf8Class b rest
    c.1 && utf8ValidGo fuel c.2.2

def utf8Valid (bs : List Nat) : Bool := utf8ValidGo bs.length bs

/-- Lossy decoding scan (`String::from_utf8_lossy`), returning the UTF-8
bytes of the resulting string. -/
def utf8LossyGo : Nat → List Nat → List Nat
  | 0, _ => []
  | _, [] => []
  | fuel + 1, b :: rest =>
    let c := utf8Class b rest
    c.2.1 ++ utf8LossyGo fuel c.2.2

def fromUtf8Lossy (bs : List Nat) : List Nat := utf8LossyGo bs.length bs

/-- Models `str::trim_end_matches('\0')` on the byte representation: in valid UTF-8
(which `from_utf8_lossy` always yields) a trailing NUL character is exactly a
trailing zero byte. -/
def trimEndNul (bs : List Nat) : List Nat :=
  (bs.reverse.dropWhile (fun b => b = 0)).reverse

/-! ## Reader errors and the reader monad shape -/

/-- The error kinds the extraction / parsing paths distinguish.  Every
constructor corresponds to one `bail!` / error source in the Rust code;
`eofErr` is the `std::io` "failed to fill whole buffer" error,
`overflowStop` models a Rust arithmetic panic (see `usizeSub`), and
`modelFuel` is the embedding's fuel-exhaustion artifact. -/
inductive RErr where
  | eofErr
  | badArchiveMagic
  | badFileMagic
  | badFileType (b : Nat)
  | badExtentType (b : Nat)
  | utf8Err
  | overflowStop
  | checksumMismatch (id expected got : Nat)
  | danglingReference (id : Nat)
  | ioNotFound
  | modelFuel
deriving DecidableEq, Repr

abbrev RStream := List Nat

/-- A reader: consumes a prefix of the stream or fails. -/
def RM (α : Type) : Type := RStream → Except RErr (α × RStream)

def rpure {α : Type} (a : α) : RM α := fun s => .ok (a, s)

def rbind {α β : Type} (x : RM α) (f : α → RM β) : RM β := fun s =>
  match x s with
  | .ok (a, s1) => f a s1
  | .error e => .error e

def rfail {α : Type} (e : RErr) : RM α := fun _ => .error e

/-- Lift a checked-arithmetic result: `none` is a Rust panic. -/
def rofOpt {α : Type} : Option α → RM α
  | some a => rpure a
  | none => rfail .overflowStop

/-- Lift an `Except` value (e.g. `FileType::from_byte`). -/
def rofExcept {α : Type} : Except RErr α → RM α
  | .ok a => rpure a
  | .error e => rfail e

/-- Models `Read::read_exact` into a buffer of `n` bytes. -/
def readExact (n : Nat) : RM (List Nat) := fun s =>
  if n ≤ s.length then .ok (s.take n, s.drop n) else .error .eofErr

def rdU8 : RM Nat := fun s =>
  match s with
  | [] => .error .eofErr
  | b :: r => .ok (b, r)

def rdU16 : RM Nat := rbind (readExact 2) fun bs => rpure (fromLE bs)

def rdU32 : RM Nat := rbind (readExact 4) fun bs => rpure (fromLE bs)

def rdU64 : RM Nat := rbind (readExact 8) fun bs => rpure (fromLE bs)

/-! ## format.rs: constants and record types -/

/-- Models `REFTAR_MAGIC = b"reftar"`. -/
def reftarMagic : List Nat := [0x72, 0x65, 0x66, 0x74, 0x61, 0x72]

/-- Models `REFTAR_VERSION`. -/
def REFTAR_VERSION : Nat := 1

/-- Models `DEFAULT_BLOCK_SIZE`. -/
def DEFAULT_BLOCK_SIZE : Nat := 4096

/-- Models `FILE_HEADER_MAGIC = b"FILE"`. -/
def fileMagic : List Nat := [0x46, 0x49, 0x4C, 0x45]

structure ArchiveHeader where
  version : Nat
  block_size : Nat
deriving DecidableEq, Repr

/-- Models `FileType` (tar compatible discriminants `'0'..'6'`). -/
inductive FileType where
  | Regular
  | HardLink
  | SymbolicLink
  | CharDevice
  | BlockDevice
  | Directory
  | FIFO
deriving DecidableEq, Repr

/-- Models `FileType as u8`. -/
def FileType.toByte : FileType → Nat
  | .Regular => 0x30
  | .HardLink => 0x31
  | .SymbolicLink => 0x32
  | .CharDevice => 0x33
  | .BlockDevice => 0x34
  | .Directory => 0x35
  | .FIFO => 0x36

/-- Models `FileType::from_byte`. -/
def FileType.from_byte (b : Nat) : Except RErr FileType :=
  if b = 0x30 then .ok .Regular
  else if b = 0x31 then .ok .HardLink
  else if b = 0x32 then .ok .SymbolicLink
  else if b = 0x33 then .ok .CharDevice
  else if b = 0x34 then .ok .BlockDevice
  else if b = 0x35 then .ok .Directory
  else if b = 0x36 then .ok .FIFO
  else .error (.badFileType b)

/-- Models `FileHeader`; `String` fields are carried as UTF-8 byte lists and
`file_size` as a `Nat` (`u128` in the source, 12 bytes on wire). -/
structure FileHeader where
  file_size : Nat
  file_type : FileType
  uid : Nat
  gid : Nat
  device_major : Nat
  device_minor : Nat
  access_time : Nat
  modify_time : Nat
  creation_time : Nat
  username : List Nat
  groupname : List Nat
  file_path : List Nat
  file_name : List Nat
  link_name : List Nat
  extended_permissions : List Nat
  source_filesystem_type : List Nat
  source_filesystem_id : Nat
  inline_data : List Nat
deriving DecidableEq, Repr

/-- Models `ExtentType` (`'D'`, `'S'`, `'R'`). -/
inductive ExtentType where
  | Data
  | Sparse
  | Reference
deriving DecidableEq, Repr

def ExtentType.toByte : ExtentType → Nat
  | .Data => 0x44
  | .Sparse => 0x53
  | .Reference => 0x52

/-- Models `ExtentType::from_byte`. -/
def ExtentType.from_byte (b : Nat) : Except RErr ExtentType :=
  if b = 0x44 then .ok .Data
  else if b = 0x53 then .ok .Sparse
  else if b = 0x52 then .ok .Reference
  else .error (.badExtentType b)

structure ExtentHeader where
  extent_id : Nat
  length_in_blocks : Nat
  extent_type : ExtentType
  source_extent_start : Nat
  checksum : Nat
deriving DecidableEq, Repr

/-! ## format.rs: writers -/

/-- Models `write_length_prefixed_string`: `(u32 len)(bytes)`. -/
def lenPrefixed (s : List Nat) : List Nat := toLE 4 s.length ++ s

/-- Models `ArchiveHeader::write`.  `none` models the Rust arithmetic panic when
`block_size < 12` (underflow of `block_size as usize - header_size`) or
`block_size = 0` (`% 0`). -/
def ArchiveHeader.write (h : ArchiveHeader) : Option (List Nat) := do
  let d ← usizeSub h.block_size 12
  let padding ← usizeMod d h.block_size
  some (reftarMagic ++ toLE 2 h.version ++ toLE 4 h.block_size ++
    List.replicate padding 0)

/-- Models `FileHeader::calculate_size` (u32 arithmetic, hence `% 2^32`; each
string length is cast `as u32` first, which is absorbed by the final mod). -/
def FileHeader.calculate_size (h : FileHeader) : Nat :=
  (4 + 4 + 12 + 1 + 8 + 8 + 8 + 8 + 8 + 8 + 8 +
    (4 + h.username.length) + (4 + h.groupname.length) +
    (4 + h.file_path.length) + (4 + h.file_name.length) +
    (4 + h.link_name.length) + (4 + h.extended_permissions.length) +
    128 + 8 + h.inline_data.length) % 2 ^ 32

/-- The logical size of a serialized `FileHeader` before the `u32` wrap
(what the writer actually emits before padding). -/
def FileHeader.rawSize (h : FileHeader) : Nat :=
  4 + 4 + 12 + 1 + 8 + 8 + 8 + 8 + 8 + 8 + 8 +
    (4 + h.username.length) + (4 + h.groupname.length) +
    (4 + h.file_path.length) + (4 + h.file_name.length) +
    (4 + h.link_name.length) + (4 + h.extended_permissions.length) +
    128 + 8 + h.inline_data.length

/-- The fixed 128-byte `source_filesystem_type` buffer: the first
`min (len) 128` bytes of the name, zero-filled to 128. -/
def fsTypeBuf (s : List Nat) : List Nat :=
  s.take 128 ++ List.replicate (128 - min s.length 128) 0

/-- Models `FileHeader::write`.  Writes the 12 low bytes of `file_size`, all the
fixed fields, the length-prefixed strings, the fixed filesystem-type buffer,
the inline data (a no-op when empty, hence unconditional `++`), then pads to
a block boundary using the wrapped `header_size`. -/
def FileHeader.write (h : FileHeader) (block_size : Nat) : Option (List Nat) := do
  let header_size := h.calculate_size
  let m ← usizeMod header_size block_size
  let d ← usizeSub block_size m
  let padding ← usizeMod d block_size
  some (fileMagic ++ toLE 4 header_size ++ toLE 12 h.file_size ++
    [h.file_type.toByte] ++
    toLE 8 h.uid ++ toLE 8 h.gid ++ toLE 8 h.device_major ++
    toLE 8 h.device_minor ++ toLE 8 h.access_time ++ toLE 8 h.modify_time ++
    toLE 8 h.creation_time ++
    lenPrefixed h.username ++ lenPrefixed h.groupname ++
    lenPrefixed h.file_path ++ lenPrefixed h.file_name ++
    lenPrefixed h.link_name ++
    lenPrefixed h.extended_permissions ++
    fsTypeBuf h.source_filesystem_type ++
    toLE 8 h.source_filesystem_id ++
    h.inline_data ++
    List.replicate padding 0)

/-- Models `ExtentHeader::write`.  The padding is `(block_size - 25) % block_size`
on `usize`, hence `none` (panic) whenever `block_size < 25`. -/
def ExtentHeader.write (h : ExtentHeader) (block_size : Nat) : Option (List Nat) := do
  let d ← usizeSub block_size 25
  let padding ← usizeMod d block_size
  some (toLE 8 h.extent_id ++ toLE 4 h.length_in_blocks ++
    [h.extent_type.toByte] ++ toLE 8 h.source_extent_start ++
    toLE 4 h.checksum ++ List.replicate padding 0)

/-! ## format.rs: readers -/

/-- Models `read_length_prefixed_string` (strict UTF-8 via `String::from_utf8`). -/
def readLPString : RM (List Nat) :=
  rbind rdU32 fun len =>
  rbind (readExact len) fun bs =>
  if utf8Valid bs then rpure bs else rfail .utf8Err

/-- Models `ArchiveHeader::read`. -/
def ArchiveHeader.readM : RM ArchiveHeader :=
  rbind (readExact 6) fun magic =>
  if magic = reftarMagic then
    rbind rdU16 fun version =>
    rbind rdU32 fun block_size =>
    rbind (rofOpt (usizeSub block_size 12)) fun d =>
    rbind (rofOpt (usizeMod d block_size)) fun padding =>
    rbind (readExact padding) fun _ =>
    rpure { version := version, block_size := block_size }
  else rfail .badArchiveMagic

/-- Models `FileHeader::read`.  The padding is computed from the `header_size`
field it just read (the single source of truth), not from the bytes
actually consumed. -/
def FileHeader.readM (block_size : Nat) : RM FileHeader :=
  rbind (readExact 4) fun magic =>
  if magic = fileMagic then
    rbind rdU32 fun header_size =>
    rbind (readExact 12) fun fsz =>
    rbind rdU8 fun ftb =>
    rbind (rofExcept (FileType.from_byte ftb)) fun file_type =>
    rbind rdU64 fun uid =>
    rbind rdU64 fun gid =>
    rbind rdU64 fun device_major =>
    rbind rdU64 fun device_minor =>
    rbind rdU64 fun access_time =>
    rbind rdU64 fun modify_time =>
    rbind rdU64 fun creation_time =>
    rbind readLPString fun username =>
    rbind readLPString fun groupname =>
    rbind readLPString fun file_path =>
    rbind readLPString fun file_name =>
    rbind readLPString fun link_name =>
    rbind rdU32 fun ext_perm_len =>
    rbind (readExact ext_perm_len) fun extended_permissions =>
    rbind (readExact 128) fun fs_type_buf =>
    rbind rdU64 fun source_filesystem_id =>
    rbind
      (if fromLE fsz < block_size ∧ file_type = FileType.Regular then
        readExact (fromLE fsz)
      else rpure []) fun inline_data =>
    rbind (rofOpt (usizeMod header_size block_size)) fun m =>
    rbind (rofOpt (usizeSub block_size m)) fun d =>
    rbind (rofOpt (usizeMod d block_size)) fun padding =>
    rbind (readExact padding) fun _ =>
    rpure
      { file_size := fromLE fsz, file_type := file_type, uid := uid,
        gid := gid, device_major := device_major,
        device_minor := device_minor, access_time := access_time,
        modify_time := modify_time, creation_time := creation_time,
        username := username, groupname := groupname,
        file_path := file_path, file_name := file_name,
        link_name := link_name,
        extended_permissions := extended_permissions,
        source_filesystem_type := trimEndNul (fromUtf8Lossy fs_type_buf),
        source_filesystem_id := source_filesystem_id,
        inline_data := inline_data }
  else rfail .badFileMagic

/-- Models `ExtentHeader::read`.  Padding `(block_size - 25) % block_size` on
`usize`: an arithmetic stop when `block_size < 25`. -/
def ExtentHeader.readM (block_size : Nat) : RM ExtentHeader :=
  rbind rdU64 fun extent_id =>
  rbind rdU32 fun length_in_blocks =>
  rbind rdU8 fun etb =>
  rbind (rofExcept (ExtentType.from_byte etb)) fun extent_type =>
  rbind rdU64 fun source_extent_start =>
  rbind rdU32 fun checksum =>
  rbind (rofOpt (usizeSub block_size 25)) fun d =>
  rbind (rofOpt (usizeMod d block_size)) fun padding =>
  rbind (readExact padding) fun _ =>
  rpure
    { extent_id := extent_id, length_in_blocks := length_in_blocks,
      extent_type := extent_type, source_extent_start := source_extent_start,
      checksum := checksum }

/-! ## Association lists (the `HashMap`s of create.rs / extract.rs) -/

/-- Lookup in an association list (models `HashMap::get`). -/
def alookup {κ β : Type} [DecidableEq κ] : List (κ × β) → κ → Option β
  | [], _ => none
  | (k2, v) :: t, k => if k2 = k then some v else alookup t k

/-! ## create.rs: the archive creator -/

/-- Models `ExtentInfo` (create.rs). -/
structure ExtentInfo where
  extent_id : Nat
  file_path : List Nat
  offset : Nat
  length : Nat
  checksum : Nat
deriving DecidableEq, Repr

/-- One emitted extent record: its header and, for Data extents, the raw
block payload that follows it.  The creator state keeps this list alongside
the output bytes as a specification-level view of what was emitted. -/
structure ExtRec where
  hdr : ExtentHeader
  payload : Option (List Nat)
deriving DecidableEq, Repr

/-- Models `ArchiveCreator` state: output bytes written so far, the
checksum-to-extent fingerprint map, and the next fresh extent id.
`recs` is the record-level view of the emitted extent records. -/
structure CreState where
  out : List Nat
  recs : List ExtRec
  block_size : Nat
  extent_map : List (Nat × ExtentInfo)
  next_extent_id : Nat
deriving Repr

/-- The zero-padded read buffer for block `i` of `content`
(`block_data` in `write_file_extents`): the creator allocates a
`block_size` zero buffer and reads `block_len` bytes into its front. -/
def padBlock (content : List Nat) (bs i : Nat) : List Nat :=
  let chunk := (content.drop (i * bs)).take bs
  chunk ++ List.replicate (bs - chunk.length) 0

/-- One iteration of the block loop in `ArchiveCreator::write_file_extents`:
hash the padded block; a fingerprint hit emits a Reference extent with the
existing id, a miss allocates a fresh id, emits a Data extent followed by
the padded block, and records the fingerprint. -/
def writeBlockExtent (src content : List Nat) (i : Nat) (st : CreState) :
    Option CreState :=
  let bs := st.block_size
  let block_offset := i * bs
  let block_data := padBlock content bs i
  let checksum := crc32 block_data
  match alookup st.extent_map checksum with
  | some existing => do
    let hdr : ExtentHeader :=
      { extent_id := existing.extent_id, length_in_blocks := 1,
        extent_type := .Reference, source_extent_start := block_offset,
        checksum := checksum }
    let hb ← ExtentHeader.write hdr bs
    some { st with out := st.out ++ hb, recs := st.recs ++ [⟨hdr, none⟩] }
  | none => do
    let new_id := st.next_extent_id
    let hdr : ExtentHeader :=
      { extent_id := new_id, length_in_blocks := 1,
        extent_type := .Data, source_extent_start := block_offset,
        checksum := checksum }
    let hb ← ExtentHeader.write hdr bs
    let info : ExtentInfo :=
      { extent_id := new_id, file_path := src, offset := block_offset,
        length := (content.drop block_offset).take bs |>.length,
        checksum := checksum }
    some { st with
      out := st.out ++ hb ++ block_data,
      recs := st.recs ++ [⟨hdr, some block_data⟩],
      extent_map := (checksum, info) :: st.extent_map,
      next_extent_id := new_id + 1 }

/-- Models `ArchiveCreator::write_file_extents`: `ceil(file_size / block_size)`
block iterations.  `none` when `block_size = 0` (the `ceil` division would
panic) or when an extent write stops. -/
def write_file_extents (src content : List Nat) (st : CreState) :
    Option CreState :=
  if st.block_size = 0 then none
  else
    let file_size := content.length
    let num_blocks := (file_size + st.block_size - 1) / st.block_size
    (List.range num_blocks).foldlM (fun s i => writeBlockExtent src content i s) st

/-- The stat metadata the creator reads from the source filesystem
(uid/gid/times from `fs::metadata`, user/group names after the
`get_username`/`get_groupname` fallback already applied, and the
filesystem label captured through reflink.rs). -/
structure SrcMeta where
  uid : Nat
  gid : Nat
  atime : Nat
  mtime : Nat
  ctime : Nat
  username : List Nat
  groupname : List Nat
  fsType : List Nat
  fsId : Nat
deriving Repr

/-- A source filesystem node as `ArchiveCreator::build_file_header` sees it.
`fs::metadata` follows symbolic links, so the creator only ever observes
regular files and directories. -/
inductive SrcNode where
  | regular (content : List Nat)
  | dirNode
deriving Repr

/-- One `add_file` request: the source path, the archive path split as the
header stores it (`file_path` = parent, `file_name` = base name), the stat
answers, and the node itself. -/
structure SrcFile where
  srcPath : List Nat
  fileDir : List Nat
  fileName : List Nat
  meta : SrcMeta
  node : SrcNode
deriving Repr

/-- Models `ArchiveCreator::build_file_header`.  A directory's `metadata.len()` is
filesystem-defined; the model uses 0 (no claim depends on it). -/
def build_file_header (bs : Nat) (f : SrcFile) : FileHeader :=
  let file_type := match f.node with
    | .dirNode => FileType.Directory
    | .regular _ => FileType.Regular
  let file_size := match f.node with
    | .dirNode => 0
    | .regular c => c.length
  let inline_data := match f.node with
    | .regular c => if 0 < c.length ∧ c.length < bs then c else []
    | .dirNode => []
  { file_size := file_size, file_type := file_type,
    uid := f.meta.uid, gid := f.meta.gid,
    device_major := 0, device_minor := 0,
    access_time := f.meta.atime, modify_time := f.meta.mtime,
    creation_time := f.meta.ctime,
    username := f.meta.username, groupname := f.meta.groupname,
    file_path := f.fileDir, file_name := f.fileName,
    link_name := [],
    extended_permissions := [],
    source_filesystem_type :=
      (match f.node with | .regular _ => f.meta.fsType | .dirNode => []),
    source_filesystem_id :=
      (match f.node with | .regular _ => f.meta.fsId | .dirNode => 0),
    inline_data := inline_data }

/-- The content of a regular node (what `write_file_extents` reads back
from the source path). -/
def SrcNode.content : SrcNode → List Nat
  | .regular c => c
  | .dirNode => []

/-- Models `ArchiveCreator::add_file`: write the file header, then extents for a
regular file with no inline data. -/
def add_file (st : CreState) (f : SrcFile) : Option CreState := do
  let fh := build_file_header st.block_size f
  let hb ← FileHeader.write fh st.block_size
  let st1 := { st with out := st.out ++ hb }
  if fh.file_type = FileType.Regular ∧ fh.inline_data = [] then
    write_file_extents f.srcPath f.node.content st1
  else
    some st1

/-- Models `ArchiveCreator::new` followed by a sequence of `add_file` calls (the
directory walk of `add_directory` flattens to such a sequence).  `new`
writes the `ArchiveHeader` with `REFTAR_VERSION` eagerly. -/
def createArchive (bs : Nat) (files : List SrcFile) : Option CreState := do
  let hb ← ArchiveHeader.write { version := REFTAR_VERSION, block_size := bs }
  files.foldlM add_file
    { out := hb, recs := [], block_size := bs, extent_map := [],
      next_extent_id := 0 }

/-! ## extract.rs: the archive extractor

The output side of extraction is modelled as an association list from paths
(byte strings) to filesystem entries.  Writing through a file handle at an
offset past the end of the file extends the file, zero-filling any gap
(POSIX `lseek`+`write` semantics). -/

inductive FsEntry where
  | dirE
  | symlinkE (target : List Nat)
  | fileE (content : List Nat)
deriving DecidableEq, Repr

abbrev Fs := List (List Nat × FsEntry)

/-- Models `PathBuf::join` for the paths the extractor builds (separator `/`);
joining onto an empty base keeps the component alone. -/
def pathJoin (a b : List Nat) : List Nat :=
  if a = [] then b else if b = [] then a else a ++ 0x2F :: b

def fsInsert (fs : Fs) (p : List Nat) (e : FsEntry) : Fs := (p, e) :: fs

/-- Models `fs::create_dir_all` (ancestor creation elided: only the directory
entry itself matters to the model). -/
def createDirAll (fs : Fs) (p : List Nat) : Fs :=
  if (alookup fs p).isSome then fs else fsInsert fs p .dirE

/-- Models `seek(SeekFrom::Start off)` + `write_all data` on content `c`. -/
def spliceAt (c : List Nat) (off : Nat) (data : List Nat) : List Nat :=
  let c2 := if c.length < off then c ++ List.replicate (off - c.length) 0 else c
  c2.take off ++ data ++ c2.drop (off + data.length)

/-- Write `data` at `off` into the open output file `p`.  The extractor
only calls this while `p` is an open regular file, so the other cases
leave the filesystem unchanged. -/
def fsWriteAt (fs : Fs) (p : List Nat) (off : Nat) (data : List Nat) : Fs :=
  match alookup fs p with
  | some (.fileE c) => fsInsert fs p (.fileE (spliceAt c off data))
  | _ => fs

/-- Models `reflink::try_reflink_range`: the portable branch of reflink.rs always
reports "not supported", so the extractor's copy fallback runs. -/
def try_reflink_range (_srcPath : List Nat) (_srcOff : Nat)
    (_destPath : List Nat) (_destOff : Nat) (_len : Nat) : Bool :=
  false

/-- Models `CachedExtent` (extract.rs). -/
structure CachedExtent where
  extent_id : Nat
  data : List Nat
  file_location : Option (List Nat × Nat)
deriving DecidableEq, Repr

/-- Models `ArchiveExtractor` state. -/
structure ExtState where
  stream : RStream
  block_size : Nat
  extent_cache : List (Nat × CachedExtent)
  output_dir : List Nat
  fs : Fs
  current_file_path : Option (List Nat)
deriving Repr

/-- Models `ArchiveExtractor::new`: read the `ArchiveHeader` eagerly and remember
its `block_size`. -/
def ArchiveExtractor.new (stream : RStream) (output_dir : List Nat) :
    Except RErr ExtState :=
  match ArchiveHeader.readM stream with
  | .error e => .error e
  | .ok (hdr, s1) =>
    .ok { stream := s1, block_size := hdr.block_size, extent_cache := [],
          output_dir := output_dir, fs := [], current_file_path := none }

/-- One iteration of the extent loop of
`ArchiveExtractor::extract_file_with_extents`: read an `ExtentHeader` and
dispatch on its type.  Returns the advanced `current_offset`; errors carry
the state as mutated so far (the Rust `&mut self` keeps partial effects). -/
def extractExtentStep (p : List Nat) (off : Nat) (st : ExtState) :
    Except RErr Nat × ExtState :=
  match ExtentHeader.readM st.block_size st.stream with
  | .error e => (.error e, st)
  | .ok (eh, s1) =>
    let st1 := { st with stream := s1 }
    match eh.extent_type with
    | .Data =>
      let data_size := eh.length_in_blocks * st1.block_size
      match readExact data_size st1.stream with
      | .error e => (.error e, st1)
      | .ok (data, s2) =>
        let st2 := { st1 with stream := s2 }
        let calculated := crc32 data
        if calculated ≠ eh.checksum then
          (.error (.checksumMismatch eh.extent_id eh.checksum calculated), st2)
        else
          let loc := st2.current_file_path.map fun q => (q, off)
          (.ok (off + data_size),
            { st2 with
              fs := fsWriteAt st2.fs p off data,
              extent_cache :=
                (eh.extent_id, ⟨eh.extent_id, data, loc⟩) :: st2.extent_cache })
    | .Sparse => (.ok (off + eh.length_in_blocks * st1.block_size), st1)
    | .Reference =>
      match alookup st1.extent_cache eh.extent_id with
      | none => (.error (.danglingReference eh.extent_id), st1)
      | some cached =>
        let data_size := cached.data.length
        let reflink_used :=
          match cached.file_location with
          | some (srcp, srcoff) =>
            if (alookup st1.fs srcp).isSome then
              try_reflink_range srcp srcoff p off data_size
            else false
          | none => false
        let st2 :=
          if reflink_used then st1
          else { st1 with fs := fsWriteAt st1.fs p off cached.data }
        (.ok (off + data_size), st2)

/-- The `while current_offset < file_size` loop, fuelled by the remaining
stream length (each successful iteration consumes at least one byte). -/
def extentLoop (p : List Nat) (file_size : Nat) :
    Nat → Nat → ExtState → Except RErr Unit × ExtState
  | 0, _, st => (.error .modelFuel, st)
  | fuel + 1, off, st =>
    if off < file_size then
      match extractExtentStep p off st with
      | (.error e, st1) => (.error e, st1)
      | (.ok off1, st1) => extentLoop p file_size fuel off1 st1
    else (.ok (), st)

/-- Models `ArchiveExtractor::extract_file_with_extents`: open with
write+create+truncate, `set_len(file_size)` (a fresh file of zeros), then
loop over extents. -/
def extract_file_with_extents (p : List Nat) (file_size : Nat)
    (st : ExtState) : Except RErr Unit × ExtState :=
  let st1 := { st with fs := fsInsert st.fs p (.fileE (List.replicate file_size 0)) }
  extentLoop p file_size (st1.stream.length + 1) 0 st1

/-- Models `ArchiveExtractor::set_file_metadata`: `fs::metadata(path)` (one-step
symlink resolution, targets taken as model-absolute), then the chmod policy,
which does not change any content the model tracks. -/
def set_file_metadata (fs : Fs) (p : List Nat) : Except RErr Unit :=
  match alookup fs p with
  | some (.symlinkE t) =>
    if (alookup fs t).isSome then .ok () else .error .ioNotFound
  | some _ => .ok ()
  | none => .error .ioNotFound

/-- Tail of `extract_next_file` after the type dispatch: apply the metadata
policy and report one file extracted. -/
def finishMeta (st : ExtState) (p : List Nat) : Except RErr Bool × ExtState :=
  match set_file_metadata st.fs p with
  | .ok _ => (.ok true, st)
  | .error e => (.error e, st)

/-- Models `ArchiveExtractor::extract_next_file`.  An EOF error from
`FileHeader::read` — detected in the source by
`e.to_string().contains("failed to fill whole buffer")`, i.e. exactly our
`RErr.eofErr` — is returned as `Ok(false)` (end of archive); any other
header error propagates.  The unsupported file types only log a diagnostic,
but `set_file_metadata` still runs on the never-created output path. -/
def extract_next_file (st : ExtState) : Except RErr Bool × ExtState :=
  match FileHeader.readM st.block_size st.stream with
  | .error .eofErr => (.ok false, st)
  | .error e => (.error e, st)
  | .ok (fh, s1) =>
    let st1 := { st with stream := s1 }
    let parentPath := pathJoin st1.output_dir fh.file_path
    let output_path := pathJoin parentPath fh.file_name
    let st2 := { st1 with fs := createDirAll st1.fs parentPath }
    match fh.file_type with
    | .Directory =>
      finishMeta { st2 with fs := createDirAll st2.fs output_path } output_path
    | .SymbolicLink =>
      finishMeta
        { st2 with fs := fsInsert st2.fs output_path (.symlinkE fh.link_name) }
        output_path
    | .Regular =>
      if fh.inline_data ≠ [] then
        finishMeta
          { st2 with fs := fsInsert st2.fs output_path (.fileE fh.inline_data) }
          output_path
      else if 0 < fh.file_size then
        match extract_file_with_extents output_path fh.file_size
            { st2 with current_file_path := some output_path } with
        | (.error e, st3) => (.error e, st3)
        | (.ok _, st3) => finishMeta { st3 with current_file_path := none } output_path
      else
        finishMeta
          { st2 with fs := fsInsert st2.fs output_path (.fileE []) }
          output_path
    | _ => finishMeta st2 output_path

/-- The `loop` of `ArchiveExtractor::extract_all`, fuelled by the remaining
stream length.  An error whose message contains
"failed to fill whole buffer" — exactly `RErr.eofErr` in the model — breaks
the loop as a normal end of archive. -/
def extract_all_loop : Nat → ExtState → Except RErr Unit × ExtState
  | 0, st => (.error .modelFuel, st)
  | fuel + 1, st =>
    match extract_next_file st with
    | (.ok true, st1) => extract_all_loop fuel st1
    | (.ok false, st1) => (.ok (), st1)
    | (.error .eofErr, st1) => (.ok (), st1)
    | (.error e, st1) => (.error e, st1)

/-- Models `ArchiveExtractor::extract_all`. -/
def extract_all (st : ExtState) : Except RErr Unit × ExtState :=
  extract_all_loop (st.stream.length + 1) st

/-- Models `new` + `extract_all`, returning the resulting output filesystem (the
composition the CLI performs). -/
def extractArchive (bytes : List Nat) (outdir : List Nat) : Except RErr Fs :=
  match ArchiveExtractor.new bytes outdir with
  | .error e => .error e
  | .ok st =>
    match extract_all st with
    | (.ok _, st1) => .ok st1.fs
    | (.error e, _) => .error e

/-! ## Concrete inputs used by the claim witnesses and counterexamples -/

/-- Stat metadata with every field zero / empty. -/
def zeroMeta : SrcMeta := ⟨0, 0, 0, 0, 0, [], [], [], 0⟩

/-- A 33-byte regular file named "f": its size is not a multiple of the
block size 32 and is at least one block, so it is stored as two extents. -/
def c1file : SrcFile :=
  { srcPath := [0x66], fileDir := [], fileName := [0x66], meta := zeroMeta,
    node := .regular (List.replicate 33 7) }

/-- The archive the creator produces from `c1file` at block size 32. -/
def c1bytes : List Nat := ((createArchive 32 [c1file]).map CreState.out).getD []

/-- Extract `bytes` into an empty output directory and return the content
of the regular file at `path`, when extraction succeeds and the entry is a
regular file. -/
def extractedFile (bytes path : List Nat) : Option (List Nat) :=
  match extractArchive bytes [] with
  | .ok fs =>
    match alookup fs path with
    | some (.fileE c) => some c
    | _ => none
  | .error _ => none

/-- A file header for a 64-byte regular file (two whole blocks at block
size 32, no inline data). -/
def c2fh : FileHeader :=
  build_file_header 32
    { srcPath := [0x66], fileDir := [], fileName := [0x66], meta := zeroMeta,
      node := .regular (List.replicate 64 5) }

/-- An archive that ends 10 bytes into an `ExtentHeader`: a valid archive
header and file header announcing a 64-byte extent file, then only 10
stray bytes. -/
def c2bytes : List Nat :=
  ((ArchiveHeader.write ⟨1, 32⟩).getD []) ++
    ((FileHeader.write c2fh 32).getD []) ++ List.replicate 10 0

/-- A FIFO file header (file type byte `'6'`). -/
def c7fh : FileHeader :=
  { file_size := 0, file_type := .FIFO, uid := 0, gid := 0, device_major := 0,
    device_minor := 0, access_time := 0, modify_time := 0, creation_time := 0,
    username := [], groupname := [], file_path := [], file_name := [0x66],
    link_name := [], extended_permissions := [], source_filesystem_type := [],
    source_filesystem_id := 0, inline_data := [] }

/-- An archive holding exactly one FIFO entry. -/
def c7bytes : List Nat :=
  ((ArchiveHeader.write ⟨1, 32⟩).getD []) ++ ((FileHeader.write c7fh 32).getD [])

/-- Witness records for the codec roundtrip. -/
def c3archHdr : ArchiveHeader := ⟨1, 32⟩

def c3extHdr : ExtentHeader :=
  { extent_id := 5, length_in_blocks := 1, extent_type := .Data,
    source_extent_start := 64, checksum := 1234 }

def c3fileHdr : FileHeader :=
  { file_size := 100, file_type := .Regular, uid := 1000, gid := 1000,
    device_major := 0, device_minor := 0, access_time := 3, modify_time := 4,
    creation_time := 5, username := [0x61], groupname := [0x62],
    file_path := [], file_name := [0x63], link_name := [],
    extended_permissions := [], source_filesystem_type := [0x65, 0x78, 0x74],
    source_filesystem_id := 7, inline_data := [] }

/-- Witness inputs for the Reference-extent claim. -/
def c6hdr : ExtentHeader :=
  { extent_id := 0, length_in_blocks := 1, extent_type := .Reference,
    source_extent_start := 0, checksum := 99 }

def c6cached : CachedExtent :=
  { extent_id := 0, data := List.replicate 32 1, file_location := none }

def c6fs : Fs := [([0x66], .fileE (List.replicate 64 0))]

def c6stNone : ExtState := ⟨(c6hdr.write 32).getD [], 32, [], [], [], none⟩

def c6stSome : ExtState :=
  ⟨(c6hdr.write 32).getD [], 32, [(0, c6cached)], [], c6fs, none⟩

/-- Witness inputs for the checksum claim. -/
def c4data : List Nat := List.replicate 32 1

def c4hdr : ExtentHeader :=
  { extent_id := 3, length_in_blocks := 1, extent_type := .Data,
    source_extent_start := 0, checksum := crc32 c4data }

def c4hdrBad : ExtentHeader :=
  { extent_id := 3, length_in_blocks := 1, extent_type := .Data,
    source_extent_start := 0, checksum := 0 }

def c4stOk : ExtState :=
  ⟨(c4hdr.write 32).getD [] ++ c4data, 32, [], [], [], none⟩

def c4stBad : ExtState :=
  ⟨(c4hdrBad.write 32).getD [] ++ c4data, 32, [], [], [], none⟩

/-- A fresh creator state at block size 32 (header bytes elided). -/
def cre0 : CreState := ⟨[], [], 32, [], 0⟩

def cre1 : CreState :=
  (writeBlockExtent [0x66] (List.replicate 33 7) 0 cre0).getD cre0

/-- Is an `Except` result a success? -/
def exceptOk {e a : Type} : Except e a → Bool
  | .ok _ => true
  | .error _ => false

/-- Extractor state holding exactly one FIFO file record. -/
def c7st : ExtState := ⟨(FileHeader.write c7fh 32).getD [], 32, [], [], [], none⟩

/-! ## Specification views for the dedup invariant -/

/-- The extent ids of the Data extents among `recs`, in order. -/
def dataIds (recs : List ExtRec) : List Nat :=
  recs.filterMap fun r =>
    if r.hdr.extent_type = .Data then some r.hdr.extent_id else none

/-- Every later extent with the same checksum as an earlier one is a
Reference carrying the earlier extent's id. -/
def pairProp (recs : List ExtRec) : Prop :=
  ∀ r1 r2 : ExtRec, [r1, r2].Sublist recs →
    r1.hdr.checksum = r2.hdr.checksum →
    r2.hdr.extent_type = .Reference ∧
    r2.hdr.extent_id = r1.hdr.extent_id

/-- Every Reference is preceded by a Data extent with the same id and
checksum. -/
def refProp (recs : List ExtRec) : Prop :=
  ∀ r2 ∈ recs, r2.hdr.extent_type = .Reference →
    ∃ r1, [r1, r2].Sublist recs ∧ r1.hdr.extent_type = .Data ∧
      r1.hdr.extent_id = r2.hdr.extent_id ∧
      r1.hdr.checksum = r2.hdr.checksum

/-- The creator's dedup invariant, maintained across blocks and files:
the fingerprint map reflects the emitted records, allocated ids stay below
`next_extent_id`, Data ids are pairwise distinct, and the two record-level
properties above hold. -/
structure CreInv (st : CreState) : Prop where
  mapRec : ∀ r ∈ st.recs, ∃ info,
    alookup st.extent_map r.hdr.checksum = some info ∧
    info.extent_id = r.hdr.extent_id
  recMap : ∀ c info, alookup st.extent_map c = some info →
    info.extent_id < st.next_extent_id ∧
    ∃ r ∈ st.recs, r.hdr.extent_type = .Data ∧
      r.hdr.extent_id = info.extent_id ∧ r.hdr.checksum = c
  nodup : (dataIds st.recs).Nodup
  bound : ∀ id ∈ dataIds st.recs, id < st.next_extent_id
  pairs : pairProp st.recs
  refs : refProp st.recs

/-- Witness input for the dedup claim: a 64-byte file of zeros, whose two
identical blocks become one Data extent and one Reference extent. -/
def c5file : SrcFile :=
  { srcPath := [0x66], fileDir := [], fileName := [0x66], meta := zeroMeta,
    node := .regular (List.replicate 64 0) }

def c5state : CreState := (createArchive 32 [c5file]).getD cre0

/-! ## Little-endian lemmas -/

theorem length_toLE (k v : Nat) : (toLE k v).length = k := by
  induction k generalizing v with
  | zero => rfl
  | succ k ih => simp [toLE, ih]

theorem fromLE_toLE (k v : Nat) : fromLE (toLE k v) = v % 256 ^ k := by
  induction k generalizing v with
  | zero => simp [toLE, fromLE, Nat.mod_one]
  | succ k ih =>
    have hp : (256 : Nat) ^ (k + 1) = 256 * 256 ^ k := by ring
    rw [toLE, fromLE, ih, hp, Nat.mod_mul]

theorem fromLE_toLE_of_lt {k v : Nat} (h : v < 256 ^ k) :
    fromLE (toLE k v) = v := by
  rw [fromLE_toLE, Nat.mod_eq_of_lt h]

/-! ## Reader lemmas -/

theorem rbind_ok {α β : Type} {x : RM α} {f : α → RM β} {s s1 : RStream}
    {a : α} (h : x s = .ok (a, s1)) : rbind x f s = f a s1 := by
  simp [rbind, h]

theorem rpure_run {α : Type} (a : α) (s : RStream) : rpure a s = .ok (a, s) := rfl

theorem readExact_append {n : Nat} {bs rest : RStream} (h : bs.length = n) :
    readExact n (bs ++ rest) = .ok (bs, rest) := by
  subst h
  simp [readExact, List.take_left, List.drop_left]

theorem rdU8_cons (b : Nat) (rest : RStream) : rdU8 (b :: rest) = .ok (b, rest) := rfl

theorem rdU16_append {v : Nat} {rest : RStream} (h : v < 256 ^ 2) :
    rdU16 (toLE 2 v ++ rest) = .ok (v, rest) := by
  rw [rdU16, rbind_ok (readExact_append (length_toLE 2 v))]
  simp [rpure, fromLE_toLE_of_lt h]

theorem rdU32_append {v : Nat} {rest : RStream} (h : v < 256 ^ 4) :
    rdU32 (toLE 4 v ++ rest) = .ok (v, rest) := by
  rw [rdU32, rbind_ok (readExact_append (length_toLE 4 v))]
  simp [rpure, fromLE_toLE_of_lt h]

theorem rdU64_append {v : Nat} {rest : RStream} (h : v < 256 ^ 8) :
    rdU64 (toLE 8 v ++ rest) = .ok (v, rest) := by
  rw [rdU64, rbind_ok (readExact_append (length_toLE 8 v))]
  simp [rpure, fromLE_toLE_of_lt h]

/-! ## ArchiveHeader roundtrip -/

theorem archive_write_eq {h : ArchiveHeader} (h12 : 12 ≤ h.block_size) :
    h.write = some (reftarMagic ++ toLE 2 h.version ++ toLE 4 h.block_size ++
      List.replicate ((h.block_size - 12) % h.block_size) 0) := by
  have h0 : h.block_size ≠ 0 := by omega
  simp [ArchiveHeader.write, usizeSub, usizeMod, h12, h0]

theorem archive_read_write {h : ArchiveHeader} {out rest : RStream}
    (h12 : 12 ≤ h.block_size) (hv : h.version < 2 ^ 16)
    (hb : h.block_size < 2 ^ 32) (hw : h.write = some out) :
    ArchiveHeader.readM (out ++ rest) = .ok (h, rest) := by
  rw [archive_write_eq h12] at hw
  have hout := Option.some.inj hw
  subst hout
  have h0 : h.block_size ≠ 0 := by omega
  rw [ArchiveHeader.readM]
  simp only [List.append_assoc]
  rw [rbind_ok (readExact_append (by rfl))]
  rw [if_pos rfl]
  rw [rbind_ok (rdU16_append (by simpa using hv))]
  rw [rbind_ok (rdU32_append (by simpa using hb))]
  rw [show usizeSub h.block_size 12 = some (h.block_size - 12) from by
    simp [usizeSub, h12]]
  rw [show rofOpt (some (h.block_size - 12)) = rpure (h.block_size - 12) from rfl]
  rw [rbind_ok (rpure_run _ _)]
  rw [show usizeMod (h.block_size - 12) h.block_size =
      some ((h.block_size - 12) % h.block_size) from by simp [usizeMod, h0]]
  rw [show rofOpt (some ((h.block_size - 12) % h.block_size)) =
      rpure ((h.block_size - 12) % h.block_size) from rfl]
  rw [rbind_ok (rpure_run _ _)]
  rw [rbind_ok (readExact_append (List.length_replicate _ _))]
  rfl

/-! ## ExtentHeader roundtrip -/

theorem extentType_from_byte_toByte (t : ExtentType) :
    ExtentType.from_byte t.toByte = .ok t := by
  cases t <;> rfl

theorem fileType_from_byte_toByte (t : FileType) :
    FileType.from_byte t.toByte = .ok t := by
  cases t <;> rfl

theorem extent_write_eq {h : ExtentHeader} {bs : Nat} (h25 : 25 ≤ bs) :
    h.write bs = some (toLE 8 h.extent_id ++ toLE 4 h.length_in_blocks ++
      [h.extent_type.toByte] ++ toLE 8 h.source_extent_start ++
      toLE 4 h.checksum ++ List.replicate ((bs - 25) % bs) 0) := by
  simp [ExtentHeader.write, usizeSub, usizeMod, h25, show bs ≠ 0 by omega]

theorem extent_read_write {h : ExtentHeader} {bs : Nat} {out rest : RStream}
    (h25 : 25 ≤ bs) (hid : h.extent_id < 2 ^ 64) (hlen : h.length_in_blocks < 2 ^ 32)
    (hstart : h.source_extent_start < 2 ^ 64) (hck : h.checksum < 2 ^ 32)
    (hw : h.write bs = some out) :
    ExtentHeader.readM bs (out ++ rest) = .ok (h, rest) := by
  rw [extent_write_eq h25] at hw
  have hout := Option.some.inj hw
  subst hout
  have h0 : bs ≠ 0 := by omega
  rw [ExtentHeader.readM]
  simp only [List.append_assoc, List.singleton_append, List.cons_append,
    List.nil_append]
  rw [rbind_ok (rdU64_append (by simpa using hid))]
  rw [rbind_ok (rdU32_append (by simpa using hlen))]
  rw [rbind_ok (rdU8_cons h.extent_type.toByte _)]
  rw [extentType_from_byte_toByte]
  rw [show rofExcept (Except.ok h.extent_type) = rpure h.extent_type from rfl]
  rw [rbind_ok (rpure_run _ _)]
  rw [rbind_ok (rdU64_append (by simpa using hstart))]
  rw [rbind_ok (rdU32_append (by simpa using hck))]
  rw [show usizeSub bs 25 = some (bs - 25) from by simp [usizeSub, h25]]
  rw [show rofOpt (some (bs - 25)) = rpure (bs - 25) from rfl]
  rw [rbind_ok (rpure_run _ _)]
  rw [show usizeMod (bs - 25) bs = some ((bs - 25) % bs) from by simp [usizeMod, h0]]
  rw [show rofOpt (some ((bs - 25) % bs)) = rpure ((bs - 25) % bs) from rfl]
  rw [rbind_ok (rpure_run _ _)]
  rw [rbind_ok (readExact_append (List.length_replicate _ _))]
  rfl

/-! ## UTF-8 lemmas -/

theorem utf8Class_rest_le (b : Nat) (rest : List Nat) :
    (utf8Class b rest).2.2.length ≤ rest.length := by
  rcases rest with _ | ⟨b1, _ | ⟨b2, _ | ⟨b3, r⟩⟩⟩ <;>
    simp only [utf8Class] <;> split_ifs <;> simp <;> omega

theorem utf8Class_valid_decomp {b : Nat} {rest : List Nat}
    (h : (utf8Class b rest).1 = true) :
    (utf8Class b rest).2.1 ++ (utf8Class b rest).2.2 = b :: rest := by
  rcases rest with _ | ⟨b1, _ | ⟨b2, _ | ⟨b3, r⟩⟩⟩ <;>
    simp only [utf8Class] at h ⊢ <;> split_ifs at h ⊢ <;> simp_all

theorem utf8Class_valid_emit_ne {b : Nat} {rest : List Nat}
    (h : (utf8Class b rest).1 = true) : (utf8Class b rest).2.1 ≠ [] := by
  rcases rest with _ | ⟨b1, _ | ⟨b2, _ | ⟨b3, r⟩⟩⟩ <;>
    simp only [utf8Class] at h ⊢ <;> split_ifs at h ⊢ <;> simp_all

set_option maxHeartbeats 1600000 in
theorem utf8Class_valid_append {b : Nat} {rest : List Nat} (t : List Nat)
    (h : (utf8Class b rest).1 = true) :
    utf8Class b (rest ++ t) =
      (true, (utf8Class b rest).2.1, (utf8Class b rest).2.2 ++ t) := by
  rcases rest with _ | ⟨b1, _ | ⟨b2, _ | ⟨b3, r⟩⟩⟩ <;>
    simp only [utf8Class, List.cons_append, List.nil_append] at h ⊢ <;>
    split_ifs at h <;> simp_all <;>
    (split_ifs <;> first | simp_all | omega)

theorem utf8ValidGo_fuel : ∀ n m s, s.length ≤ n → s.length ≤ m →
    utf8ValidGo n s = utf8ValidGo m s := by
  intro n
  induction n with
  | zero =>
    intro m s hn _
    have : s = [] := List.eq_nil_of_length_eq_zero (Nat.le_zero.mp hn)
    subst this
    cases m <;> rfl
  | succ n ih =>
    intro m s hn hm
    cases s with
    | nil => cases m <;> rfl
    | cons b rest =>
      cases m with
      | zero => simp at hm
      | succ m =>
        simp only [utf8ValidGo]
        have hle := utf8Class_rest_le b rest
        have h1 : (utf8Class b rest).2.2.length ≤ n := by
          simp at hn; omega
        have h2 : (utf8Class b rest).2.2.length ≤ m := by
          simp at hm; omega
        rw [ih m _ h1 h2]

theorem utf8LossyGo_fuel : ∀ n m s, s.length ≤ n → s.length ≤ m →
    utf8LossyGo n s = utf8LossyGo m s := by
  intro n
  induction n with
  | zero =>
    intro m s hn _
    have : s = [] := List.eq_nil_of_length_eq_zero (Nat.le_zero.mp hn)
    subst this
    cases m <;> rfl
  | succ n ih =>
    intro m s hn hm
    cases s with
    | nil => cases m <;> rfl
    | cons b rest =>
      cases m with
      | zero => simp at hm
      | succ m =>
        simp only [utf8LossyGo]
        have hle := utf8Class_rest_le b rest
        have h1 : (utf8Class b rest).2.2.length ≤ n := by
          simp at hn; omega
        have h2 : (utf8Class b rest).2.2.length ≤ m := by
          simp at hm; omega
        rw [ih m _ h1 h2]

theorem utf8Valid_cons_class {b : Nat} {rest : List Nat}
    (h : utf8Valid (b :: rest) = true) :
    (utf8Class b rest).1 = true ∧ utf8Valid (utf8Class b rest).2.2 = true := by
  have hle := utf8Class_rest_le b rest
  unfold utf8Valid at h
  rw [show (b :: rest).length = rest.length + 1 from rfl] at h
  simp only [utf8ValidGo, Bool.and_eq_true] at h
  refine ⟨h.1, ?_⟩
  have h2 := h.2
  rw [utf8Valid]
  rw [utf8ValidGo_fuel ((utf8Class b rest).2.2.length) rest.length _ (le_refl _) hle]
  exact h2

theorem fromUtf8Lossy_append_of_valid :
    ∀ n s t, s.length ≤ n → utf8Valid s = true →
      fromUtf8Lossy (s ++ t) = s ++ fromUtf8Lossy t := by
  intro n
  induction n with
  | zero =>
    intro s t hn _
    have : s = [] := List.eq_nil_of_length_eq_zero (Nat.le_zero.mp hn)
    subst this
    simp
  | succ n ih =>
    intro s t hn hv
    cases s with
    | nil => simp
    | cons b rest =>
      obtain ⟨hc, hrest⟩ := utf8Valid_cons_class hv
      have hle := utf8Class_rest_le b rest
      have hdec := utf8Class_valid_decomp hc
      have happ := utf8Class_valid_append t hc
      rw [fromUtf8Lossy]
      rw [show ((b :: rest) ++ t) = b :: (rest ++ t) from rfl]
      rw [show (b :: (rest ++ t)).length = (rest ++ t).length + 1 from rfl]
      simp only [utf8LossyGo, happ]
      have hlt : (utf8Class b rest).2.2.length ≤ n := by simp at hn; omega
      have hfuel : ((utf8Class b rest).2.2 ++ t).length ≤ (rest ++ t).length := by
        simp; omega
      rw [utf8LossyGo_fuel _ ((utf8Class b rest).2.2 ++ t).length _ hfuel (le_refl _)]
      rw [show utf8LossyGo ((utf8Class b rest).2.2 ++ t).length
          ((utf8Class b rest).2.2 ++ t) = fromUtf8Lossy ((utf8Class b rest).2.2 ++ t)
        from rfl]
      rw [ih _ t hlt hrest]
      rw [← List.append_assoc, hdec]

theorem utf8Valid_replicate_zero (k : Nat) :
    utf8Valid (List.replicate k 0) = true := by
  induction k with
  | zero => rfl
  | succ k ih =>
    have hcl : utf8Class 0 (List.replicate k 0) =
        (true, [0], List.replicate k 0) := by simp [utf8Class]
    rw [utf8Valid, List.length_replicate, List.replicate_succ]
    simp only [utf8ValidGo, hcl, Bool.true_and]
    have h2 : utf8ValidGo (List.replicate k 0).length (List.replicate k 0) =
        true := ih
    rwa [List.length_replicate] at h2

theorem fromUtf8Lossy_replicate_zero (k : Nat) :
    fromUtf8Lossy (List.replicate k 0) = List.replicate k 0 := by
  induction k with
  | zero => rfl
  | succ k ih =>
    have hcl : utf8Class 0 (List.replicate k 0) =
        (true, [0], List.replicate k 0) := by simp [utf8Class]
    rw [fromUtf8Lossy, List.length_replicate, List.replicate_succ]
    simp only [utf8LossyGo, hcl]
    have h2 : utf8LossyGo (List.replicate k 0).length (List.replicate k 0) =
        List.replicate k 0 := ih
    rw [List.length_replicate] at h2
    rw [h2]
    rfl

theorem trimEndNul_append_zeros {s : List Nat} (k : Nat)
    (h : s.getLast? ≠ some 0) :
    trimEndNul (s ++ List.replicate k 0) = s := by
  unfold trimEndNul
  rw [List.reverse_append, List.reverse_replicate]
  have hdrop : ∀ m (l : List Nat),
      List.dropWhile (fun b => decide (b = 0)) (List.replicate m 0 ++ l) =
      List.dropWhile (fun b => decide (b = 0)) l := by
    intro m
    induction m with
    | zero => intro l; rfl
    | succ m ih => intro l; simp [List.replicate_succ, List.dropWhile, ih]
  rw [hdrop]
  cases hs : s.reverse with
  | nil =>
    have : s = [] := by simpa using congrArg List.reverse hs
    simp [this]
  | cons a l =>
    have ha : a ≠ 0 := by
      have : s.getLast? = some a := by
        rw [← List.head?_reverse, hs]; rfl
      intro h0; exact h (by rw [this, h0])
    rw [List.dropWhile_cons]
    simp only [ha, decide_eq_true_eq, if_false]
    rw [← hs, List.reverse_reverse]

/-! ## FileHeader roundtrip -/

theorem readLPString_append {u rest : RStream} (hl : u.length < 256 ^ 4)
    (hv : utf8Valid u = true) :
    readLPString (lenPrefixed u ++ rest) = .ok (u, rest) := by
  rw [readLPString, lenPrefixed, List.append_assoc]
  rw [rbind_ok (rdU32_append hl)]
  rw [rbind_ok (readExact_append rfl)]
  rw [if_pos hv]
  rfl

theorem fsTypeBuf_eq {s : List Nat} (h : s.length ≤ 128) :
    fsTypeBuf s = s ++ List.replicate (128 - s.length) 0 := by
  rw [fsTypeBuf, List.take_of_length_le h, min_eq_left h]

theorem length_fsTypeBuf {s : List Nat} (h : s.length ≤ 128) :
    (fsTypeBuf s).length = 128 := by
  rw [fsTypeBuf_eq h]
  simp
  omega

theorem fsType_roundtrip {s : List Nat} (h : s.length ≤ 128)
    (hv : utf8Valid s = true) (hnz : s.getLast? ≠ some 0) :
    trimEndNul (fromUtf8Lossy (fsTypeBuf s)) = s := by
  rw [fsTypeBuf_eq h]
  rw [fromUtf8Lossy_append_of_valid s.length s _ (le_refl _) hv]
  rw [fromUtf8Lossy_replicate_zero]
  exact trimEndNul_append_zeros _ hnz

theorem calculate_size_lt (h : FileHeader) : h.calculate_size < 256 ^ 4 := by
  rw [FileHeader.calculate_size]
  have he : (2 : Nat) ^ 32 = 256 ^ 4 := by norm_num
  rw [← he]
  exact Nat.mod_lt _ (by norm_num)

theorem file_write_eq {h : FileHeader} {bs : Nat} (h0 : bs ≠ 0) :
    h.write bs = some (fileMagic ++ toLE 4 h.calculate_size ++
      toLE 12 h.file_size ++ [h.file_type.toByte] ++ toLE 8 h.uid ++
      toLE 8 h.gid ++ toLE 8 h.device_major ++ toLE 8 h.device_minor ++
      toLE 8 h.access_time ++ toLE 8 h.modify_time ++ toLE 8 h.creation_time ++
      lenPrefixed h.username ++ lenPrefixed h.groupname ++
      lenPrefixed h.file_path ++ lenPrefixed h.file_name ++
      lenPrefixed h.link_name ++ lenPrefixed h.extended_permissions ++
      fsTypeBuf h.source_filesystem_type ++ toLE 8 h.source_filesystem_id ++
      h.inline_data ++
      List.replicate ((bs - h.calculate_size % bs) % bs) 0) := by
  have hm : h.calculate_size % bs < bs := Nat.mod_lt _ (Nat.pos_of_ne_zero h0)
  simp [FileHeader.write, usizeMod, usizeSub, h0, Nat.le_of_lt hm]

theorem file_read_write {h : FileHeader} {bs : Nat} {out rest : RStream}
    (hbs : bs ≠ 0)
    (hfs : h.file_size < 256 ^ 12)
    (huid : h.uid < 256 ^ 8) (hgid : h.gid < 256 ^ 8)
    (hdma : h.device_major < 256 ^ 8) (hdmi : h.device_minor < 256 ^ 8)
    (hat : h.access_time < 256 ^ 8) (hmt : h.modify_time < 256 ^ 8)
    (hct : h.creation_time < 256 ^ 8)
    (hun : h.username.length < 256 ^ 4) (hunv : utf8Valid h.username = true)
    (hgn : h.groupname.length < 256 ^ 4) (hgnv : utf8Valid h.groupname = true)
    (hfp : h.file_path.length < 256 ^ 4) (hfpv : utf8Valid h.file_path = true)
    (hfn : h.file_name.length < 256 ^ 4) (hfnv : utf8Valid h.file_name = true)
    (hln : h.link_name.length < 256 ^ 4) (hlnv : utf8Valid h.link_name = true)
    (hep : h.extended_permissions.length < 256 ^ 4)
    (hft : h.source_filesystem_type.length ≤ 128)
    (hftv : utf8Valid h.source_filesystem_type = true)
    (hftz : h.source_filesystem_type.getLast? ≠ some 0)
    (hfsid : h.source_filesystem_id < 256 ^ 8)
    (hinl : if h.file_size < bs ∧ h.file_type = FileType.Regular
            then h.inline_data.length = h.file_size else h.inline_data = [])
    (hw : h.write bs = some out) :
    FileHeader.readM bs (out ++ rest) = .ok (h, rest) := by
  have hcs := calculate_size_lt h
  rw [file_write_eq hbs] at hw
  have hout := Option.some.inj hw
  subst hout
  rw [FileHeader.readM]
  simp only [List.append_assoc, List.singleton_append, List.cons_append,
    List.nil_append]
  rw [rbind_ok (readExact_append (by rfl))]
  rw [if_pos rfl]
  rw [rbind_ok (rdU32_append hcs)]
  rw [rbind_ok (readExact_append (length_toLE 12 h.file_size))]
  rw [rbind_ok (rdU8_cons h.file_type.toByte _)]
  rw [fileType_from_byte_toByte]
  rw [show rofExcept (Except.ok h.file_type) = rpure h.file_type from rfl]
  rw [rbind_ok (rpure_run _ _)]
  rw [rbind_ok (rdU64_append huid)]
  rw [rbind_ok (rdU64_append hgid)]
  rw [rbind_ok (rdU64_append hdma)]
  rw [rbind_ok (rdU64_append hdmi)]
  rw [rbind_ok (rdU64_append hat)]
  rw [rbind_ok (rdU64_append hmt)]
  rw [rbind_ok (rdU64_append hct)]
  rw [rbind_ok (readLPString_append hun hunv)]
  rw [rbind_ok (readLPString_append hgn hgnv)]
  rw [rbind_ok (readLPString_append hfp hfpv)]
  rw [rbind_ok (readLPString_append hfn hfnv)]
  rw [rbind_ok (readLPString_append hln hlnv)]
  rw [show lenPrefixed h.extended_permissions ++
      (fsTypeBuf h.source_filesystem_type ++ (toLE 8 h.source_filesystem_id ++
        (h.inline_data ++ (List.replicate ((bs - h.calculate_size % bs) % bs) 0 ++
          rest)))) =
      toLE 4 h.extended_permissions.length ++ (h.extended_permissions ++
      (fsTypeBuf h.source_filesystem_type ++ (toLE 8 h.source_filesystem_id ++
        (h.inline_data ++ (List.replicate ((bs - h.calculate_size % bs) % bs) 0 ++
          rest))))) from by rw [lenPrefixed, List.append_assoc]]
  rw [rbind_ok (rdU32_append hep)]
  rw [rbind_ok (readExact_append rfl)]
  rw [rbind_ok (readExact_append (length_fsTypeBuf hft))]
  rw [rbind_ok (rdU64_append hfsid)]
  rw [fromLE_toLE_of_lt hfs]
  rw [fsType_roundtrip hft hftv hftz]
  by_cases hcond : h.file_size < bs ∧ h.file_type = FileType.Regular
  · rw [if_pos hcond]
    rw [if_pos hcond] at hinl
    rw [rbind_ok (readExact_append hinl)]
    rw [show usizeMod h.calculate_size bs = some (h.calculate_size % bs) from by
      simp [usizeMod, hbs]]
    rw [show rofOpt (some (h.calculate_size % bs)) =
      rpure (h.calculate_size % bs) from rfl]
    rw [rbind_ok (rpure_run _ _)]
    rw [show usizeSub bs (h.calculate_size % bs) =
        some (bs - h.calculate_size % bs) from by
      simp [usizeSub, Nat.le_of_lt (Nat.mod_lt _ (Nat.pos_of_ne_zero hbs))]]
    rw [show rofOpt (some (bs - h.calculate_size % bs)) =
      rpure (bs - h.calculate_size % bs) from rfl]
    rw [rbind_ok (rpure_run _ _)]
    rw [show usizeMod (bs - h.calculate_size % bs) bs =
        some ((bs - h.calculate_size % bs) % bs) from by simp [usizeMod, hbs]]
    rw [show rofOpt (some ((bs - h.calculate_size % bs) % bs)) =
      rpure ((bs - h.calculate_size % bs) % bs) from rfl]
    rw [rbind_ok (rpure_run _ _)]
    rw [rbind_ok (readExact_append (List.length_replicate _ _))]
    rfl
  · rw [if_neg hcond]
    rw [if_neg hcond] at hinl
    rw [hinl, List.nil_append]
    rw [rbind_ok (rpure_run _ _)]
    rw [show usizeMod h.calculate_size bs = some (h.calculate_size % bs) from by
      simp [usizeMod, hbs]]
    rw [show rofOpt (some (h.calculate_size % bs)) =
      rpure (h.calculate_size % bs) from rfl]
    rw [rbind_ok (rpure_run _ _)]
    rw [show usizeSub bs (h.calculate_size % bs) =
        some (bs - h.calculate_size % bs) from by
      simp [usizeSub, Nat.le_of_lt (Nat.mod_lt _ (Nat.pos_of_ne_zero hbs))]]
    rw [show rofOpt (some (bs - h.calculate_size % bs)) =
      rpure (bs - h.calculate_size % bs) from rfl]
    rw [rbind_ok (rpure_run _ _)]
    rw [show usizeMod (bs - h.calculate_size % bs) bs =
        some ((bs - h.calculate_size % bs) % bs) from by simp [usizeMod, hbs]]
    rw [show rofOpt (some ((bs - h.calculate_size % bs) % bs)) =
      rpure ((bs - h.calculate_size % bs) % bs) from rfl]
    rw [rbind_ok (rpure_run _ _)]
    rw [rbind_ok (readExact_append (List.length_replicate _ _))]
    rw [rpure_run]
    have heq : (⟨h.file_size, h.file_type, h.uid, h.gid, h.device_major,
        h.device_minor, h.access_time, h.modify_time, h.creation_time,
        h.username, h.groupname, h.file_path, h.file_name, h.link_name,
        h.extended_permissions, h.source_filesystem_type,
        h.source_filesystem_id, []⟩ : FileHeader) = h := by
      rw [← hinl]
    rw [heq]

/-! ## Auxiliary run lemmas for failing reads -/

theorem rbind_fail {α β : Type} (e : RErr) (f : α → RM β) (s : RStream) :
    rbind (rfail e) f s = .error e := rfl

/-! ## Record lengths -/

theorem archive_write_length {h : ArchiveHeader} {out : RStream}
    (h12 : 12 ≤ h.block_size) (hw : h.write = some out) :
    out.length = 12 + (h.block_size - 12) % h.block_size := by
  rw [archive_write_eq h12] at hw
  have hout := Option.some.inj hw
  subst hout
  simp [reftarMagic, length_toLE]
  omega

theorem extent_write_length {h : ExtentHeader} {bs : Nat} {out : RStream}
    (h25 : 25 ≤ bs) (hw : h.write bs = some out) :
    out.length = 25 + (bs - 25) % bs := by
  rw [extent_write_eq h25] at hw
  have hout := Option.some.inj hw
  subst hout
  simp [length_toLE]
  omega

theorem lenPrefixed_length (s : List Nat) :
    (lenPrefixed s).length = 4 + s.length := by
  simp [lenPrefixed, length_toLE]

theorem file_write_length {h : FileHeader} {bs : Nat} {out : RStream}
    (h0 : bs ≠ 0) (hraw : h.rawSize < 2 ^ 32) (hw : h.write bs = some out) :
    out.length = h.rawSize + (bs - h.rawSize % bs) % bs := by
  have hcs : h.calculate_size = h.rawSize := by
    rw [FileHeader.calculate_size, FileHeader.rawSize]
    exact Nat.mod_eq_of_lt hraw
  rw [file_write_eq h0] at hw
  have hout := Option.some.inj hw
  subst hout
  simp [fileMagic, length_toLE, lenPrefixed_length, length_fsTypeBuf, hcs,
    fsTypeBuf, FileHeader.rawSize]
  omega

theorem pad_total_mod (L bs : Nat) (h0 : bs ≠ 0) :
    (L + (bs - L % bs) % bs) % bs = 0 := by
  rcases Nat.eq_zero_or_pos (L % bs) with hz | hp
  · rw [hz, Nat.sub_zero, Nat.mod_self, Nat.add_zero]
    exact hz
  · have hlt : L % bs < bs := Nat.mod_lt _ (Nat.pos_of_ne_zero h0)
    have hsub : bs - L % bs < bs := by omega
    rw [Nat.mod_eq_of_lt hsub, Nat.add_mod, Nat.mod_eq_of_lt hsub]
    have hbs : L % bs + (bs - L % bs) = bs := by omega
    rw [hbs, Nat.mod_self]

/-! ## C3: read after write is the identity for all three record kinds -/

/-- C3: for every ArchiveHeader, FileHeader (including its inline_data)
and ExtentHeader value the writer can produce — block size at least the
record's fixed size, string/vector lengths fitting `u32`, `file_size`
below `2^96`, `source_filesystem_type` at most 128 valid UTF-8 bytes with
no trailing NUL, `inline_data` consistent with `file_type` and `file_size`
— reading back the written bytes returns the original value and leaves the
rest of the stream untouched. -/
theorem c3_codec_roundtrip :
    (∀ (h : ArchiveHeader) (out rest : RStream),
      12 ≤ h.block_size → h.version < 2 ^ 16 → h.block_size < 2 ^ 32 →
      h.write = some out →
      ArchiveHeader.readM (out ++ rest) = .ok (h, rest)) ∧
    (∀ (h : ExtentHeader) (bs : Nat) (out rest : RStream),
      25 ≤ bs → h.extent_id < 2 ^ 64 → h.length_in_blocks < 2 ^ 32 →
      h.source_extent_start < 2 ^ 64 → h.checksum < 2 ^ 32 →
      h.write bs = some out →
      ExtentHeader.readM bs (out ++ rest) = .ok (h, rest)) ∧
    (∀ (h : FileHeader) (bs : Nat) (out rest : RStream),
      1 ≤ bs → h.file_size < 2 ^ 96 →
      h.uid < 2 ^ 64 → h.gid < 2 ^ 64 →
      h.device_major < 2 ^ 64 → h.device_minor < 2 ^ 64 →
      h.access_time < 2 ^ 64 → h.modify_time < 2 ^ 64 →
      h.creation_time < 2 ^ 64 →
      h.username.length < 2 ^ 32 → utf8Valid h.username = true →
      h.groupname.length < 2 ^ 32 → utf8Valid h.groupname = true →
      h.file_path.length < 2 ^ 32 → utf8Valid h.file_path = true →
      h.file_name.length < 2 ^ 32 → utf8Valid h.file_name = true →
      h.link_name.length < 2 ^ 32 → utf8Valid h.link_name = true →
      h.extended_permissions.length < 2 ^ 32 →
      h.source_filesystem_type.length ≤ 128 →
      utf8Valid h.source_filesystem_type = true →
      h.source_filesystem_type.getLast? ≠ some 0 →
      h.source_filesystem_id < 2 ^ 64 →
      (if h.file_size < bs ∧ h.file_type = FileType.Regular
        then h.inline_data.length = h.file_size else h.inline_data = []) →
      h.write bs = some out →
      FileHeader.readM bs (out ++ rest) = .ok (h, rest)) := by
  have e2 : (2 : Nat) ^ 16 = 256 ^ 2 := by norm_num
  have e4 : (2 : Nat) ^ 32 = 256 ^ 4 := by norm_num
  have e8 : (2 : Nat) ^ 64 = 256 ^ 8 := by norm_num
  have e12 : (2 : Nat) ^ 96 = 256 ^ 12 := by norm_num
  refine ⟨?_, ?_, ?_⟩
  · intro h out rest h12 hv hb hw
    exact archive_read_write h12 hv hb hw
  · intro h bs out rest h25 h1 h2 h3 h4 hw
    exact extent_read_write h25 (e8 ▸ h1) (e4 ▸ h2) (e8 ▸ h3) (e4 ▸ h4) hw
  · intro h bs out rest hb h1 h2 h3 h4 h5 h6 h7 h8 h9 h10 h11 h12 h13 h14
      h15 h16 h17 h18 h19 h20 h21 h22 h23 hinl hw
    exact file_read_write (by omega) (e12 ▸ h1) (e8 ▸ h2) (e8 ▸ h3)
      (e8 ▸ h4) (e8 ▸ h5) (e8 ▸ h6) (e8 ▸ h7) (e8 ▸ h8) (e4 ▸ h9) h10
      (e4 ▸ h11) h12 (e4 ▸ h13) h14 (e4 ▸ h15) h16 (e4 ▸ h17) h18
      (e4 ▸ h19) h20 h21 h22 (e8 ▸ h23) hinl hw

set_option maxRecDepth 100000 in
/-- Witness for C3 at concrete records (block size 32, one trailing byte). -/
theorem c3_codec_roundtrip_witness :
    ArchiveHeader.readM ((c3archHdr.write).getD [] ++ [9]) =
      .ok (c3archHdr, [9]) ∧
    ExtentHeader.readM 32 ((c3extHdr.write 32).getD [] ++ [9]) =
      .ok (c3extHdr, [9]) ∧
    FileHeader.readM 32 ((c3fileHdr.write 32).getD [] ++ [9]) =
      .ok (c3fileHdr, [9]) :=
  ⟨c3_codec_roundtrip.1 c3archHdr _ [9] (by decide) (by decide) (by decide)
      (by rfl),
   c3_codec_roundtrip.2.1 c3extHdr 32 _ [9] (by decide) (by decide)
      (by decide) (by decide) (by decide) (by rfl),
   c3_codec_roundtrip.2.2 c3fileHdr 32 _ [9] (by decide) (by decide)
      (by decide) (by decide) (by decide) (by decide) (by decide) (by decide)
      (by decide) (by decide) (by decide) (by decide) (by decide) (by decide)
      (by decide) (by decide) (by decide) (by decide) (by decide) (by decide)
      (by decide) (by decide) (by decide) (by decide) (by decide) (by rfl)⟩

/-! ## C8: records occupy whole blocks and readers mirror the padding -/

/-- C8: every record the writers emit has a byte length that is a
multiple of `block_size` (for a FileHeader of unwrapped logical size `L`
the length is exactly `L + (block_size − (L mod block_size)) mod
block_size`), a Data payload of `length_in_blocks * block_size` bytes is
also a whole number of blocks, and each reader consumes exactly the bytes
its writer emitted, so after reading any complete record the stream
position stays a multiple of `block_size`. -/
theorem c8_alignment :
    (∀ (h : ArchiveHeader) (out : RStream), 12 ≤ h.block_size →
      h.write = some out → out.length % h.block_size = 0) ∧
    (∀ (h : ExtentHeader) (bs : Nat) (out : RStream), 25 ≤ bs →
      h.write bs = some out → out.length % bs = 0) ∧
    (∀ (h : FileHeader) (bs : Nat) (out : RStream), 1 ≤ bs →
      h.rawSize < 2 ^ 32 → h.write bs = some out →
      out.length = h.rawSize + (bs - h.rawSize % bs) % bs ∧
      out.length % bs = 0) ∧
    (∀ (eh : ExtentHeader) (bs : Nat), (eh.length_in_blocks * bs) % bs = 0) ∧
    (∀ (h : FileHeader) (bs : Nat) (out rest : RStream), 1 ≤ bs →
      h.file_size < 2 ^ 96 →
      h.uid < 2 ^ 64 → h.gid < 2 ^ 64 →
      h.device_major < 2 ^ 64 → h.device_minor < 2 ^ 64 →
      h.access_time < 2 ^ 64 → h.modify_time < 2 ^ 64 →
      h.creation_time < 2 ^ 64 →
      h.username.length < 2 ^ 32 → utf8Valid h.username = true →
      h.groupname.length < 2 ^ 32 → utf8Valid h.groupname = true →
      h.file_path.length < 2 ^ 32 → utf8Valid h.file_path = true →
      h.file_name.length < 2 ^ 32 → utf8Valid h.file_name = true →
      h.link_name.length < 2 ^ 32 → utf8Valid h.link_name = true →
      h.extended_permissions.length < 2 ^ 32 →
      h.source_filesystem_type.length ≤ 128 →
      utf8Valid h.source_filesystem_type = true →
      h.source_filesystem_type.getLast? ≠ some 0 →
      h.source_filesystem_id < 2 ^ 64 →
      (if h.file_size < bs ∧ h.file_type = FileType.Regular
        then h.inline_data.length = h.file_size else h.inline_data = []) →
      h.write bs = some out →
      FileHeader.readM bs (out ++ rest) = .ok (h, rest)) := by
  have e4 : (2 : Nat) ^ 32 = 256 ^ 4 := by norm_num
  have e8 : (2 : Nat) ^ 64 = 256 ^ 8 := by norm_num
  have e12 : (2 : Nat) ^ 96 = 256 ^ 12 := by norm_num
  refine ⟨?_, ?_, ?_, ?_, ?_⟩
  · intro h out h12 hw
    rw [archive_write_length h12 hw]
    have hlt : h.block_size - 12 < h.block_size := by omega
    rw [Nat.mod_eq_of_lt hlt]
    have : 12 + (h.block_size - 12) = h.block_size := by omega
    rw [this, Nat.mod_self]
  · intro h bs out h25 hw
    rw [extent_write_length h25 hw]
    have hlt : bs - 25 < bs := by omega
    rw [Nat.mod_eq_of_lt hlt]
    have : 25 + (bs - 25) = bs := by omega
    rw [this, Nat.mod_self]
  · intro h bs out hb hraw hw
    have h0 : bs ≠ 0 := by omega
    refine ⟨file_write_length h0 hraw hw, ?_⟩
    rw [file_write_length h0 hraw hw]
    exact pad_total_mod _ _ h0
  · intro eh bs
    exact Nat.mul_mod_left _ _
  · intro h bs out rest hb h1 h2 h3 h4 h5 h6 h7 h8 h9 h10 h11 h12 h13 h14
      h15 h16 h17 h18 h19 h20 h21 h22 h23 hinl hw
    exact file_read_write (by omega) (e12 ▸ h1) (e8 ▸ h2) (e8 ▸ h3)
      (e8 ▸ h4) (e8 ▸ h5) (e8 ▸ h6) (e8 ▸ h7) (e8 ▸ h8) (e4 ▸ h9) h10
      (e4 ▸ h11) h12 (e4 ▸ h13) h14 (e4 ▸ h15) h16 (e4 ▸ h17) h18
      (e4 ▸ h19) h20 h21 h22 (e8 ▸ h23) hinl hw

set_option maxRecDepth 100000 in
/-- Witness for C8 at concrete records. -/
theorem c8_alignment_witness :
    ((c3archHdr.write).getD []).length % 32 = 0 ∧
    ((c3extHdr.write 32).getD []).length % 32 = 0 ∧
    ((c3fileHdr.write 32).getD []).length =
      c3fileHdr.rawSize + (32 - c3fileHdr.rawSize % 32) % 32 ∧
    ((c3fileHdr.write 32).getD []).length % 32 = 0 ∧
    (c3extHdr.length_in_blocks * 32) % 32 = 0 ∧
    FileHeader.readM 32 ((c3fileHdr.write 32).getD [] ++ [7]) =
      .ok (c3fileHdr, [7]) :=
  ⟨c8_alignment.1 c3archHdr _ (by decide) (by rfl),
   c8_alignment.2.1 c3extHdr 32 _ (by decide) (by rfl),
   (c8_alignment.2.2.1 c3fileHdr 32 _ (by decide) (by decide) (by rfl)).1,
   (c8_alignment.2.2.1 c3fileHdr 32 _ (by decide) (by decide) (by rfl)).2,
   c8_alignment.2.2.2.1 c3extHdr 32,
   c8_alignment.2.2.2.2 c3fileHdr 32 _ [7] (by decide) (by decide)
      (by decide) (by decide) (by decide) (by decide) (by decide) (by decide)
      (by decide) (by decide) (by decide) (by decide) (by decide) (by decide)
      (by decide) (by decide) (by decide) (by decide) (by decide) (by decide)
      (by decide) (by decide) (by decide) (by decide) (by decide) (by rfl)⟩

/-! ## C9: the codec's padding arithmetic needs a minimum block size -/

/-- C9: `ExtentHeader::write`/`read` compute the padding as
`block_size − 25` on unsigned integers, so for every `block_size ≤ 24`
(including all of `1..24`) the subtraction underflows and the operation is
not well-defined — the model stops (`none` / `overflowStop`) exactly
there — while every `block_size ≥ 25` succeeds; likewise
`ArchiveHeader::write` underflows for `block_size < 12` and succeeds from
12 up. -/
theorem c9_padding_underflow :
    (∀ (eh : ExtentHeader) (bs : Nat), bs ≤ 24 → eh.write bs = none) ∧
    (∀ (eh : ExtentHeader) (bs : Nat), 25 ≤ bs → (eh.write bs).isSome = true) ∧
    (∀ (bs : Nat) (b1 b2 b3 b4 rest : RStream) (tb : Nat) (et : ExtentType),
      bs ≤ 24 → b1.length = 8 → b2.length = 4 → b3.length = 8 →
      b4.length = 4 → ExtentType.from_byte tb = .ok et →
      ExtentHeader.readM bs (b1 ++ (b2 ++ (tb :: (b3 ++ (b4 ++ rest))))) =
        .error .overflowStop) ∧
    (∀ (h : ArchiveHeader), h.block_size < 12 → h.write = none) ∧
    (∀ (h : ArchiveHeader), 12 ≤ h.block_size → (h.write).isSome = true) := by
  refine ⟨?_, ?_, ?_, ?_, ?_⟩
  · intro eh bs hle
    simp [ExtentHeader.write, usizeSub, show ¬ (25 ≤ bs) from by omega]
  · intro eh bs h25
    simp [ExtentHeader.write, usizeSub, usizeMod, h25, show bs ≠ 0 from by omega]
  · intro bs b1 b2 b3 b4 rest tb et hle h1 h2 h3 h4 het
    rw [ExtentHeader.readM]
    rw [rbind_ok (show rdU64 (b1 ++ (b2 ++ (tb :: (b3 ++ (b4 ++ rest))))) =
      .ok (fromLE b1, b2 ++ (tb :: (b3 ++ (b4 ++ rest)))) from by
        rw [rdU64, rbind_ok (readExact_append h1)]; rfl)]
    rw [rbind_ok (show rdU32 (b2 ++ (tb :: (b3 ++ (b4 ++ rest)))) =
      .ok (fromLE b2, tb :: (b3 ++ (b4 ++ rest))) from by
        rw [rdU32, rbind_ok (readExact_append h2)]; rfl)]
    rw [rbind_ok (rdU8_cons tb _)]
    rw [het]
    rw [show rofExcept (Except.ok et) = rpure et from rfl]
    rw [rbind_ok (rpure_run _ _)]
    rw [rbind_ok (show rdU64 (b3 ++ (b4 ++ rest)) =
      .ok (fromLE b3, b4 ++ rest) from by
        rw [rdU64, rbind_ok (readExact_append h3)]; rfl)]
    rw [rbind_ok (show rdU32 (b4 ++ rest) = .ok (fromLE b4, rest) from by
        rw [rdU32, rbind_ok (readExact_append h4)]; rfl)]
    rw [show usizeSub bs 25 = none from by
      simp [usizeSub, show ¬ (25 ≤ bs) from by omega]]
    rw [show rofOpt (none : Option Nat) = rfail .overflowStop from rfl]
    rw [rbind_fail]
  · intro h hlt
    simp [ArchiveHeader.write, usizeSub, show ¬ (12 ≤ h.block_size) from by omega]
  · intro h h12
    simp [ArchiveHeader.write, usizeSub, usizeMod, h12,
      show h.block_size ≠ 0 from by omega]

/-- Witness for C9 at block sizes 20 (underflow) and 25 (success). -/
theorem c9_padding_underflow_witness :
    c3extHdr.write 20 = none ∧
    (c3extHdr.write 25).isSome = true ∧
    ExtentHeader.readM 20 (List.replicate 8 0 ++ (List.replicate 4 0 ++
      (0x44 :: (List.replicate 8 0 ++ (List.replicate 4 0 ++ []))))) =
      .error .overflowStop ∧
    ArchiveHeader.write ⟨1, 11⟩ = none ∧
    (ArchiveHeader.write ⟨1, 12⟩).isSome = true :=
  ⟨c9_padding_underflow.1 c3extHdr 20 (by decide),
   c9_padding_underflow.2.1 c3extHdr 25 (by decide),
   c9_padding_underflow.2.2.1 20 _ _ _ _ [] 0x44 .Data (by decide)
     (by decide) (by decide) (by decide) (by decide) (by rfl),
   c9_padding_underflow.2.2.2.1 ⟨1, 11⟩ (by decide),
   c9_padding_underflow.2.2.2.2 ⟨1, 12⟩ (by decide)⟩

/-! ## C10: any version value is accepted by the archive-header reader -/

/-- C10: `ArchiveHeader::read` performs no version validation: for
every 16-bit `v`, a header written with magic "reftar" and version `v`
parses back successfully and `ArchiveExtractor::new` proceeds, remembering
only the block size; version mismatches are never reported. -/
theorem c10_version_unchecked :
    ∀ (v bs : Nat) (out rest : RStream), v < 2 ^ 16 → 12 ≤ bs →
      bs < 2 ^ 32 → ArchiveHeader.write ⟨v, bs⟩ = some out →
      ArchiveHeader.readM (out ++ rest) = .ok (⟨v, bs⟩, rest) ∧
      ArchiveExtractor.new (out ++ rest) [] =
        .ok { stream := rest, block_size := bs, extent_cache := [],
              output_dir := [], fs := [], current_file_path := none } := by
  intro v bs out rest hv h12 hb hw
  constructor
  · exact archive_read_write h12 hv hb hw
  · rw [ArchiveExtractor.new, archive_read_write h12 hv hb hw]

set_option maxRecDepth 100000 in
/-- Witness for C10 with version 40000, which is not `REFTAR_VERSION`. -/
theorem c10_version_unchecked_witness :
    ArchiveHeader.readM (((ArchiveHeader.write ⟨40000, 32⟩).getD []) ++ [3]) =
      .ok (⟨40000, 32⟩, [3]) ∧
    ArchiveExtractor.new (((ArchiveHeader.write ⟨40000, 32⟩).getD []) ++ [3]) [] =
      .ok { stream := [3], block_size := 32, extent_cache := [],
            output_dir := [], fs := [], current_file_path := none } :=
  c10_version_unchecked 40000 32 _ [3] (by decide) (by decide) (by decide)
    (by rfl)

/-! ## C6: Reference extents resolve through the cache, never the stream -/

/-- C6: when the extractor meets a Reference extent whose id is absent
from the extent cache it fails with the dangling-reference error; when the
id is present the cached bytes are materialized at the current offset (the
reflink substrate reports "unsupported", so the copy fallback writes the
cached data) and the archive stream is left exactly where the extent
header ended — no payload bytes are consumed. -/
theorem c6_reference_resolution :
    ∀ (p : List Nat) (off : Nat) (st : ExtState) (eh : ExtentHeader)
      (s1 : RStream),
      ExtentHeader.readM st.block_size st.stream = .ok (eh, s1) →
      eh.extent_type = .Reference →
      (alookup st.extent_cache eh.extent_id = none →
        extractExtentStep p off st =
          (.error (.danglingReference eh.extent_id), { st with stream := s1 })) ∧
      (∀ cached, alookup st.extent_cache eh.extent_id = some cached →
        extractExtentStep p off st =
          (.ok (off + cached.data.length),
           { st with
               stream := s1,
               fs := fsWriteAt st.fs p off cached.data })) := by
  intro p off st eh s1 hread htype
  constructor
  · intro hnone
    simp only [extractExtentStep, hread, htype, hnone]
  · intro cached hsome
    simp only [extractExtentStep, hread, htype, hsome, try_reflink_range]
    cases hloc : cached.file_location with
    | none => simp
    | some pq =>
      cases hpq : alookup st.fs pq.1 <;> simp

set_option maxRecDepth 100000 in
/-- Witness for C6: a Reference extent header at block size 32, with an
empty cache (dangling) and with a cache holding extent 0. -/
theorem c6_reference_resolution_witness :
    extractExtentStep [0x66] 0 c6stNone =
      (.error (.danglingReference 0), ⟨[], 32, [], [], [], none⟩) ∧
    extractExtentStep [0x66] 0 c6stSome =
      (.ok (0 + c6cached.data.length),
       ⟨[], 32, [(0, c6cached)], [], fsWriteAt c6fs [0x66] 0 c6cached.data,
        none⟩) :=
  ⟨(c6_reference_resolution [0x66] 0 c6stNone c6hdr [] (by rfl) (by rfl)).1
     (by rfl),
   (c6_reference_resolution [0x66] 0 c6stSome c6hdr [] (by rfl) (by rfl)).2
     c6cached (by rfl)⟩

/-! ## C4: checksums cover the padded payload and gate extraction -/

/-- C4: every extent record the creator emits carries the CRC-32 of
the full `block_size`-padded read buffer (trailing zeros of a partial last
block included), a Data extent's payload is exactly that padded buffer;
and the extractor, after reading the `length_in_blocks * block_size`
payload of a Data extent, fails with the checksum-mismatch error exactly
when the CRC it computes differs from the stored checksum, and otherwise
writes those payload bytes at the current offset and caches them. -/
theorem c4_checksum_discipline :
    (∀ (src content : List Nat) (i : Nat) (st st' : CreState),
      writeBlockExtent src content i st = some st' →
      ∃ r, st'.recs = st.recs ++ [r] ∧
        r.hdr.checksum = crc32 (padBlock content st.block_size i) ∧
        (r.hdr.extent_type = .Data →
          r.payload = some (padBlock content st.block_size i)) ∧
        (r.hdr.extent_type = .Reference → r.payload = none)) ∧
    (∀ (p : List Nat) (off : Nat) (st : ExtState) (eh : ExtentHeader)
      (s1 : RStream) (data : List Nat) (s2 : RStream),
      ExtentHeader.readM st.block_size st.stream = .ok (eh, s1) →
      eh.extent_type = .Data →
      readExact (eh.length_in_blocks * st.block_size) s1 = .ok (data, s2) →
      (crc32 data ≠ eh.checksum →
        extractExtentStep p off st =
          (.error (.checksumMismatch eh.extent_id eh.checksum (crc32 data)),
           { st with stream := s2 })) ∧
      (crc32 data = eh.checksum →
        extractExtentStep p off st =
          (.ok (off + eh.length_in_blocks * st.block_size),
           { st with
               stream := s2,
               fs := fsWriteAt st.fs p off data,
               extent_cache := (eh.extent_id, ⟨eh.extent_id, data,
                 st.current_file_path.map fun q => (q, off)⟩) ::
                   st.extent_cache }))) := by
  constructor
  · intro src content i st st' hw
    simp only [writeBlockExtent] at hw
    cases hl : alookup st.extent_map (crc32 (padBlock content st.block_size i)) with
    | some existing =>
      rw [hl] at hw
      simp only [Option.bind_eq_bind, Option.bind_eq_some] at hw
      obtain ⟨hb, hwb, hst⟩ := hw
      refine ⟨⟨⟨existing.extent_id, 1, .Reference, i * st.block_size,
        crc32 (padBlock content st.block_size i)⟩, none⟩, ?_, rfl, ?_, ?_⟩
      · obtain rfl := Option.some.inj hst
        rfl
      · intro hd; cases hd
      · intro _; rfl
    | none =>
      rw [hl] at hw
      simp only [Option.bind_eq_bind, Option.bind_eq_some] at hw
      obtain ⟨hb, hwb, hst⟩ := hw
      refine ⟨⟨⟨st.next_extent_id, 1, .Data, i * st.block_size,
        crc32 (padBlock content st.block_size i)⟩,
        some (padBlock content st.block_size i)⟩, ?_, rfl, ?_, ?_⟩
      · obtain rfl := Option.some.inj hst
        rfl
      · intro _; rfl
      · intro hd; cases hd
  · intro p off st eh s1 data s2 hread htype hdata
    constructor
    · intro hne
      simp only [extractExtentStep, hread, htype, hdata, if_pos hne]
    · intro heq
      simp only [extractExtentStep, hread, htype, hdata, heq]
      simp

set_option maxRecDepth 400000 in
/-- Witness for C4: a Data extent whose stored checksum is wrong (mismatch
error), one whose checksum matches (payload written and cached), and one
creator block emission. -/
theorem c4_checksum_discipline_witness :
    (∃ r, cre1.recs = cre0.recs ++ [r] ∧
      r.hdr.checksum = crc32 (padBlock (List.replicate 33 7) cre0.block_size 0) ∧
      (r.hdr.extent_type = .Data →
        r.payload = some (padBlock (List.replicate 33 7) cre0.block_size 0)) ∧
      (r.hdr.extent_type = .Reference → r.payload = none)) ∧
    extractExtentStep [0x66] 0 c4stBad =
      (.error (.checksumMismatch 3 0 (crc32 c4data)),
       ⟨[], 32, [], [], [], none⟩) ∧
    extractExtentStep [0x66] 0 c4stOk =
      (.ok (0 + 1 * 32),
       ⟨[], 32, [(3, ⟨3, c4data, none⟩)], [], fsWriteAt [] [0x66] 0 c4data,
        none⟩) :=
  ⟨c4_checksum_discipline.1 [0x66] (List.replicate 33 7) 0 cre0 cre1 (by rfl),
   (c4_checksum_discipline.2 [0x66] 0 c4stBad c4hdrBad c4data c4data []
      (by rfl) (by rfl) (by rfl)).1 (by decide),
   (c4_checksum_discipline.2 [0x66] 0 c4stOk c4hdr c4data c4data []
      (by rfl) (by rfl) (by rfl)).2 (by rfl)⟩

/-! ## C2: how `extract_all` reports an EOF -/

/-- C2 (amended): `extract_all` never reports an EOF as an error.  An
EOF at a FileHeader boundary ends the loop via `Ok(false)`, and an EOF
error raised anywhere else (mid-FileHeader, mid-ExtentHeader, mid-payload)
is swallowed by the `contains("failed to fill whole buffer")` test and
also terminates extraction normally; only non-EOF errors are fatal. -/
theorem c2_eof_never_fatal :
    ∀ (fuel : Nat) (st : ExtState),
      (extract_all_loop fuel st).1 ≠ Except.error RErr.eofErr := by
  intro fuel
  induction fuel with
  | zero => intro st; simp [extract_all_loop]
  | succ fuel ih =>
    intro st
    rcases h : extract_next_file st with ⟨res, st1⟩
    cases res with
    | ok b =>
      cases b with
      | true => simpa [extract_all_loop, h] using ih st1
      | false => simp [extract_all_loop, h]
    | error e => cases e <;> simp [extract_all_loop, h]

/-- Witness for the amended C2 on an empty stream. -/
theorem c2_eof_never_fatal_witness :
    (extract_all_loop 1 ⟨[], 32, [], [], [], none⟩).1 ≠
      Except.error RErr.eofErr :=
  c2_eof_never_fatal 1 ⟨[], 32, [], [], [], none⟩

set_option maxRecDepth 400000 in
/-- Counterexample to C2 as stated: `c2bytes` ends 10 bytes into an
`ExtentHeader` (a valid archive header and a FileHeader announcing a
64-byte extent file, then 10 stray bytes), yet `extract_all` terminates
normally instead of reporting a fatal error. -/
theorem c2_eof_mid_extent_is_swallowed :
    exceptOk (extractArchive c2bytes []) = true := by rfl

/-! ## C1: create-then-extract round trip -/

set_option maxRecDepth 400000 in
/-- C1 evaluated at the failing input: a directory tree holding one
regular 33-byte file, archived at block size 32 (size not a multiple of
the block size and not inline), extracts to a 64-byte file — the original
33 bytes followed by 31 padding zeros — not to a byte-identical tree. -/
theorem c1_roundtrip_bug :
    c1file.node.content.length = 33 ∧
    extractedFile c1bytes [0x66] =
      some (List.replicate 33 7 ++ List.replicate 31 0) ∧
    (extractedFile c1bytes [0x66]).map List.length = some 64 :=
  ⟨by decide, by decide, by decide⟩

/-! ## C7: unsupported file types abort instead of being skipped -/

set_option maxRecDepth 400000 in
/-- C7 evaluated at the failing input: an archive holding one FIFO
record.  The dispatch skips the entry (only a diagnostic, no bytes beyond
the header are consumed — the stream is fully consumed by the header
itself), but `set_file_metadata` then stats the never-created output path,
so `extract_next_file` returns the not-found error and `extract_all`
aborts instead of continuing. -/
theorem c7_skip_type_aborts :
    extract_next_file c7st =
      (.error .ioNotFound, ⟨[], 32, [], [], [([], .dirE)], none⟩) ∧
    extractArchive c7bytes [] = .error .ioNotFound :=
  ⟨by rfl, by rfl⟩

/-! ## C5: sublist helpers and invariant preservation -/

theorem pair_sublist_concat :
    ∀ {l : List ExtRec} {a b c : ExtRec},
      [a, b].Sublist (l ++ [c]) → [a, b].Sublist l ∨ (a ∈ l ∧ b = c) := by
  intro l
  induction l with
  | nil =>
    intro a b c h
    have := h.length_le
    simp at this
  | cons x l ih =>
    intro a b c h
    rw [List.cons_append] at h
    cases h with
    | cons _ h2 =>
      rcases ih h2 with hs | ⟨hm, rfl⟩
      · exact Or.inl (hs.cons x)
      · exact Or.inr ⟨List.mem_cons_of_mem x hm, rfl⟩
    | cons₂ _ h2 =>
      have hb := List.singleton_sublist.mp h2
      rw [List.mem_append] at hb
      rcases hb with hb | hb
      · exact Or.inl ((List.singleton_sublist.mpr hb).cons₂ x)
      · simp at hb
        exact Or.inr ⟨List.mem_cons_self x l, hb⟩

theorem mem_concat_pair {a c : ExtRec} {l : List ExtRec} (h : a ∈ l) :
    [a, c].Sublist (l ++ [c]) := by
  obtain ⟨u, v, rfl⟩ := List.append_of_mem h
  have h1 : [a, c].Sublist (a :: (v ++ [c])) :=
    (List.sublist_append_right v [c]).cons₂ a
  have h2 : (a :: (v ++ [c])).Sublist (u ++ (a :: (v ++ [c]))) :=
    List.sublist_append_right u _
  have := h1.trans h2
  simpa using this

theorem dataIds_concat (l : List ExtRec) (r : ExtRec) :
    dataIds (l ++ [r]) = dataIds l ++
      (if r.hdr.extent_type = .Data then [r.hdr.extent_id] else []) := by
  rw [dataIds, dataIds, List.filterMap_append]
  congr 1
  split_ifs with hd <;> simp [List.filterMap, hd]

theorem CreInv_congr {st st' : CreState} (h : CreInv st)
    (h1 : st'.recs = st.recs) (h2 : st'.extent_map = st.extent_map)
    (h3 : st'.next_extent_id = st.next_extent_id) : CreInv st' := by
  refine ⟨?_, ?_, ?_, ?_, ?_, ?_⟩ <;> rw [h1] <;> try rw [h2]
  · exact fun r hr => h.mapRec r hr
  · intro c info hl
    rw [h3]
    exact h.recMap c info hl
  · exact h.nodup
  · intro id hid
    rw [h3]
    exact h.bound id hid
  · exact h.pairs
  · exact h.refs

theorem writeBlockExtent_inv {src content : List Nat} {i : Nat}
    {st st' : CreState} (hst : CreInv st)
    (h : writeBlockExtent src content i st = some st') : CreInv st' := by
  simp only [writeBlockExtent] at h
  cases hl : alookup st.extent_map (crc32 (padBlock content st.block_size i)) with
  | some existing =>
    rw [hl] at h
    simp only [Option.bind_eq_bind, Option.bind_eq_some] at h
    obtain ⟨hb, hwb, hsome⟩ := h
    obtain rfl := Option.some.inj hsome
    refine ⟨?_, ?_, ?_, ?_, ?_, ?_⟩
    · dsimp only
      intro r hr
      rcases List.mem_append.mp hr with hr | hr
      · exact hst.mapRec r hr
      · rw [List.mem_singleton.mp hr]
        exact ⟨existing, hl, rfl⟩
    · dsimp only
      intro c info hli
      obtain ⟨hlt, r, hm, hd, hi, hc⟩ := hst.recMap c info hli
      exact ⟨hlt, r, List.mem_append_left _ hm, hd, hi, hc⟩
    · dsimp only
      rw [dataIds_concat]
      simpa using hst.nodup
    · dsimp only
      rw [dataIds_concat]
      simpa using hst.bound
    · dsimp only
      intro r1 r2 hsub hck
      rcases pair_sublist_concat hsub with hs | ⟨hm, rfl⟩
      · exact hst.pairs r1 r2 hs hck
      · obtain ⟨info, hli, hid⟩ := hst.mapRec r1 hm
        rw [hck] at hli
        dsimp only at hli
        rw [hl] at hli
        obtain rfl := Option.some.inj hli
        exact ⟨rfl, hid⟩
    · dsimp only
      intro r2 hr2 href
      rcases List.mem_append.mp hr2 with hr2 | hr2
      · obtain ⟨r1, hsub, hd, hi, hc⟩ := hst.refs r2 hr2 href
        exact ⟨r1, hsub.trans (List.sublist_append_left _ _), hd, hi, hc⟩
      · obtain rfl := List.mem_singleton.mp hr2
        obtain ⟨hlt, r, hm, hd, hi, hc⟩ := hst.recMap _ existing hl
        exact ⟨r, mem_concat_pair hm, hd, hi, hc⟩
  | none =>
    rw [hl] at h
    simp only [Option.bind_eq_bind, Option.bind_eq_some] at h
    obtain ⟨hb, hwb, hsome⟩ := h
    obtain rfl := Option.some.inj hsome
    refine ⟨?_, ?_, ?_, ?_, ?_, ?_⟩
    · dsimp only
      intro r hr
      rcases List.mem_append.mp hr with hr | hr
      · obtain ⟨info, hli, hid⟩ := hst.mapRec r hr
        have hne : crc32 (padBlock content st.block_size i) ≠ r.hdr.checksum := by
          intro he
          rw [he] at hl
          rw [hl] at hli
          cases hli
        refine ⟨info, ?_, hid⟩
        rw [alookup, if_neg hne]
        exact hli
      · rw [List.mem_singleton.mp hr]
        refine ⟨⟨st.next_extent_id, src, i * st.block_size,
          ((content.drop (i * st.block_size)).take st.block_size).length,
          crc32 (padBlock content st.block_size i)⟩, ?_, rfl⟩
        rw [alookup, if_pos rfl]
    · dsimp only
      intro c info hli
      rw [alookup] at hli
      by_cases hcc : crc32 (padBlock content st.block_size i) = c
      · rw [if_pos hcc] at hli
        obtain rfl := Option.some.inj hli
        refine ⟨Nat.lt_succ_self _, ⟨⟨st.next_extent_id, 1, .Data,
          i * st.block_size, crc32 (padBlock content st.block_size i)⟩,
          some (padBlock content st.block_size i)⟩,
          List.mem_append_right _ (List.mem_singleton.mpr rfl), rfl, rfl, hcc⟩
      · rw [if_neg hcc] at hli
        obtain ⟨hlt, r, hm, hd, hi, hc⟩ := hst.recMap c info hli
        exact ⟨Nat.lt_succ_of_lt hlt, r, List.mem_append_left _ hm, hd, hi, hc⟩
    · dsimp only
      rw [dataIds_concat]
      simp only [if_pos rfl]
      rw [List.nodup_append]
      refine ⟨hst.nodup, List.nodup_singleton _, ?_⟩
      intro id hid hid2
      rw [List.mem_singleton.mp hid2] at hid
      exact absurd (hst.bound _ hid) (Nat.lt_irrefl _)
    · dsimp only
      intro id hid
      rw [dataIds_concat] at hid
      simp only [if_pos rfl] at hid
      rcases List.mem_append.mp hid with hid | hid
      · exact Nat.lt_succ_of_lt (hst.bound id hid)
      · rw [List.mem_singleton.mp hid]
        exact Nat.lt_succ_self _
    · dsimp only
      intro r1 r2 hsub hck
      rcases pair_sublist_concat hsub with hs | ⟨hm, rfl⟩
      · exact hst.pairs r1 r2 hs hck
      · obtain ⟨info, hli, hid⟩ := hst.mapRec r1 hm
        dsimp only at hck
        rw [hck] at hli
        rw [hl] at hli
        cases hli
    · dsimp only
      intro r2 hr2 href
      rcases List.mem_append.mp hr2 with hr2 | hr2
      · obtain ⟨r1, hsub, hd, hi, hc⟩ := hst.refs r2 hr2 href
        exact ⟨r1, hsub.trans (List.sublist_append_left _ _), hd, hi, hc⟩
      · rw [List.mem_singleton.mp hr2] at href
        cases href

theorem foldlM_inv {α : Type} {f : CreState → α → Option CreState}
    (hf : ∀ st x st', CreInv st → f st x = some st' → CreInv st') :
    ∀ (l : List α) (st st' : CreState), CreInv st →
      l.foldlM f st = some st' → CreInv st' := by
  intro l
  induction l with
  | nil =>
    intro st st' h hfold
    simp only [List.foldlM_nil] at hfold
    obtain rfl := Option.some.inj hfold
    exact h
  | cons x xs ih =>
    intro st st' h hfold
    simp only [List.foldlM_cons, Option.bind_eq_bind, Option.bind_eq_some]
      at hfold
    obtain ⟨st1, hx, hxs⟩ := hfold
    exact ih st1 st' (hf st x st1 h hx) hxs

theorem write_file_extents_inv {src content : List Nat} {st st' : CreState}
    (hst : CreInv st) (h : write_file_extents src content st = some st') :
    CreInv st' := by
  rw [write_file_extents] at h
  split_ifs at h
  exact foldlM_inv
    (fun s i s' hs hw => writeBlockExtent_inv hs hw) _ st st' hst h

theorem add_file_inv {st st' : CreState} {f : SrcFile} (hst : CreInv st)
    (h : add_file st f = some st') : CreInv st' := by
  simp only [add_file, Option.bind_eq_bind, Option.bind_eq_some] at h
  obtain ⟨hb, hwb, h2⟩ := h
  have hst1 : CreInv { st with out := st.out ++ hb } :=
    CreInv_congr hst rfl rfl rfl
  split_ifs at h2
  · exact write_file_extents_inv hst1 h2
  · obtain rfl := Option.some.inj h2
    exact hst1

theorem CreInv_empty (out : List Nat) (bs : Nat) :
    CreInv ⟨out, [], bs, [], 0⟩ := by
  refine ⟨?_, ?_, ?_, ?_, ?_, ?_⟩
  · intro r hr
    cases hr
  · intro c info hli
    cases hli
  · exact List.nodup_nil
  · intro id hid
    cases hid
  · intro r1 r2 hsub _
    have := hsub.length_le
    simp at this
  · intro r2 hr2
    cases hr2

/-! ## C5: each extent id defines content in at most one Data extent -/

/-- C5: in any archive the creator produces, the Data extents carry
pairwise distinct extent ids (`dataIds` has no duplicates); whenever two
emitted extents share a checksum the later one is a Reference bearing the
earlier extent's id (`pairProp`), and every Reference is preceded by the
Data extent that introduced its id with the same checksum (`refProp`). -/
theorem c5_unique_data_extents :
    ∀ (bs : Nat) (files : List SrcFile) (st : CreState),
      createArchive bs files = some st →
      (dataIds st.recs).Nodup ∧ pairProp st.recs ∧ refProp st.recs := by
  intro bs files st h
  simp only [createArchive, Option.bind_eq_bind, Option.bind_eq_some] at h
  obtain ⟨hb, hwb, hfold⟩ := h
  have hinv := foldlM_inv (fun s f s' hs hw => add_file_inv hs hw) files
    ⟨hb, [], bs, [], 0⟩ st (CreInv_empty hb bs) hfold
  exact ⟨hinv.nodup, hinv.pairs, hinv.refs⟩

set_option maxRecDepth 400000 in
/-- Witness for C5 on a concrete archive: one 64-byte file of zeros at
block size 32 (its second block deduplicates into a Reference). -/
theorem c5_unique_data_extents_witness :
    (dataIds c5state.recs).Nodup ∧ pairProp c5state.recs ∧
      refProp c5state.recs :=
  c5_unique_data_extents 32 [c5file] c5state (by rfl)
